import Mathlib

/-!
Verification development for the aggkit repository.

The Go source is shallowly embedded: pure functions become Lean functions,
stateful loops become explicit state passing, `uint64` values become `Nat`
(with explicit wrap-around where an underflow is reachable), fallible Go
calls returning `(T, error)` become `Except`-valued functions, and injected
interface dependencies (storage, RPC clients, the prover client, the SQL
store) become explicit function-valued fields of an environment record.
Keccak256 is external cryptography and is kept as an explicit function
parameter wherever a hash is computed.
-/

namespace Aggkit

/-! ## Common certificate data (agglayer/types, aggsender/types) -/

/-- `agglayertypes.CertificateStatus`: Pending, Proven, Candidate, InError, Settled. -/
inductive CertificateStatus where
  | pending
  | proven
  | candidate
  | inError
  | settled
deriving DecidableEq, Repr

/-- `CertificateStatus.IsInError` from the agglayer types. -/
def CertificateStatus.IsInError (c : CertificateStatus) : Bool :=
  c = .inError

/-- `types.CertificateType` of the aggsender: FEP, Optimistic or Unknown. -/
inductive CertificateType where
  | fep
  | optimistic
  | unknown
deriving DecidableEq, Repr

/-- `types.CertificateHeader` of the aggsender, restricted to the fields the
embedded flow code reads.  `FinalizedL1InfoTreeRoot` is a nil-able pointer in
Go, hence an `Option`. -/
structure CertificateHeader where
  fromBlock : Nat
  toBlock : Nat
  status : CertificateStatus
  certType : CertificateType
  createdAt : Nat
  retryCount : Nat
  finalizedL1InfoTreeRoot : Option Nat
  l1InfoTreeLeafCount : Nat
deriving DecidableEq, Repr

/-! ## C4: AggchainProverFlow.getLastProvenBlock (flow_aggchain_prover.go 452-474) -/

/-- The Go guard `lastCertificate != nil && lastCertificate.ToBlock < startL2Block`
from `getLastProvenBlock`. -/
def lastCertBelowStart (startL2Block : Nat) : Option CertificateHeader → Bool
  | some cert => cert.toBlock < startL2Block
  | none => false

/-- `AggchainProverFlow.getLastProvenBlock`: `a.baseFlow.StartL2Block()` is the
`startL2Block` argument.  `fromBlock - 1` is only evaluated on the branch where
`fromBlock ≠ 0`, so `Nat` subtraction agrees with the Go `uint64` subtraction. -/
def getLastProvenBlock (startL2Block fromBlock : Nat)
    (lastCertificate : Option CertificateHeader) : Nat :=
  if fromBlock = 0 then
    startL2Block
  else if lastCertBelowStart startL2Block lastCertificate then
    startL2Block
  else if fromBlock - 1 < startL2Block then
    startL2Block
  else
    fromBlock - 1

/-! ## C10: BridgeExit.Hash (agglayer types) -/

/-- Byte strings are lists of byte values. -/
def Bytes := List Nat
deriving DecidableEq, Repr

/-- `crypto.Keccak256Hash(parts...)` concatenates its arguments and hashes the
concatenation; `keccak` is the external Keccak-256 permutation, kept as a
parameter. -/
def Keccak256 (keccak : List Nat → Bytes) (parts : List (List Nat)) : Bytes :=
  keccak parts.flatten

/-- `aggkitcommon.Uint32ToBytes`: big-endian 4-byte encoding. -/
def Uint32ToBytes (n : Nat) : List Nat :=
  [n / 2 ^ 24 % 256, n / 2 ^ 16 % 256, n / 2 ^ 8 % 256, n % 256]

/-- `common.BigToHash(b).Bytes()`: the 32-byte big-endian encoding of a
big integer truncated to 256 bits. -/
def BigToHashBytes (n : Nat) : List Nat :=
  (List.range 32).map (fun i => n % 2 ^ 256 / 2 ^ (8 * (31 - i)) % 256)

/-- `agglayertypes.TokenInfo`. -/
structure TokenInfo where
  originNetwork : Nat
  originTokenAddress : List Nat
deriving DecidableEq, Repr

/-- `agglayertypes.BridgeExit`.  `Amount` is a nil-able `*big.Int`, hence an
`Option Nat`; `Metadata` is a byte slice.  The Go `TokenInfo` pointer is
modelled as a plain field (the code dereferences it unconditionally). -/
structure BridgeExit where
  leafType : Nat
  tokenInfo : TokenInfo
  destinationNetwork : Nat
  destinationAddress : List Nat
  amount : Option Nat
  metadata : List Nat
deriving DecidableEq, Repr

/-- `emptyBytesHash = crypto.Keccak256(nil)`: keccak of the empty byte string. -/
def emptyBytesHash (keccak : List Nat → Bytes) : Bytes :=
  Keccak256 keccak []

/-- The in-place normalization performed by `BridgeExit.Hash`: a nil `Amount`
is mutated to `0` before hashing. -/
def BridgeExit.hashNormalize (b : BridgeExit) : BridgeExit :=
  { b with amount := some (b.amount.getD 0) }

/-- The argument list handed to `crypto.Keccak256Hash` by `BridgeExit.Hash`
(part_001 654-673). -/
def BridgeExit.hashParts (keccak : List Nat → Bytes) (b : BridgeExit) : List (List Nat) :=
  let amount := b.amount.getD 0
  let metaDataHash := if b.metadata.length = 0 then emptyBytesHash keccak else b.metadata
  [[b.leafType % 256],
   Uint32ToBytes b.tokenInfo.originNetwork,
   b.tokenInfo.originTokenAddress,
   Uint32ToBytes b.destinationNetwork,
   b.destinationAddress,
   BigToHashBytes amount,
   metaDataHash]

/-- `BridgeExit.Hash`. -/
def BridgeExit.Hash (keccak : List Nat → Bytes) (b : BridgeExit) : Bytes :=
  Keccak256 keccak (BridgeExit.hashParts keccak b)

/-! ## C7 / C9: the L1InfoTreeSync facade (l1infotreesync, part_008)

The processor behind the facade is a SQLite-backed store; it is embedded as a
record of result-valued functions plus the sticky `halted` flag.  Each public
facade method first checks `isHalted` and otherwise delegates, exactly as in
part_008. -/

/-- Errors surfaced by the l1infotreesync read API.
`inconsistentState` is `sync.ErrInconsistentState`, `dbNotFound` is
`db.ErrNotFound`, `l1SyncNotFound` is `l1infotreesync.ErrNotFound`,
`network0NotRollup` is the literal error built by `GetLocalExitRoot`. -/
inductive SyncError where
  | inconsistentState
  | dbNotFound
  | l1SyncNotFound
  | network0NotRollup
  | other : String → SyncError
deriving DecidableEq, Repr

/-- `treetypes.Root`. -/
structure TreeRoot where
  hash : Nat
  index : Nat
  blockNum : Nat
  blockPosition : Nat
deriving DecidableEq, Repr

/-- `treetypes.Proof`: the 32 sibling hashes. -/
def TreeProof := List Nat
deriving DecidableEq, Repr

/-- `l1infotreesync.L1InfoTreeLeaf`, restricted to the fields read by the
embedded queries. -/
structure L1InfoTreeLeaf where
  blockNumber : Nat
  l1InfoTreeIndex : Nat
  mainnetExitRoot : Nat
  rollupExitRoot : Nat
  globalExitRoot : Nat
deriving DecidableEq, Repr

/-- `l1infotreesync.VerifyBatches`, restricted to the fields read by the
embedded queries. -/
structure VerifyBatchesRec where
  blockNumber : Nat
  exitRoot : Nat
  rollupExitRoot : Nat
deriving DecidableEq, Repr

/-- `l1infotreesync.L1InfoTreeInitial`. -/
structure L1InfoTreeInitial where
  leafCount : Nat
  currentL1InfoRoot : Nat
deriving DecidableEq, Repr

/-- The l1infotreesync `processor` together with the two trees it owns,
embedded as the sticky `halted` flag plus one delegate per underlying read. -/
structure ProcessorModel where
  halted : Bool
  getL1InfoTreeMerkleProof : Nat → Except SyncError (TreeProof × TreeRoot)
  rollupExitTreeGetProof : Nat → Nat → Except SyncError TreeProof
  getLatestInfoUntilBlock : Nat → Except SyncError L1InfoTreeLeaf
  getInfoByIndex : Nat → Except SyncError L1InfoTreeLeaf
  l1InfoTreeGetRootByIndex : Nat → Except SyncError TreeRoot
  rollupExitTreeGetLastRoot : Except SyncError TreeRoot
  l1InfoTreeGetLastRoot : Except SyncError TreeRoot
  getLastProcessedBlock : Except SyncError Nat
  rollupExitTreeGetLeaf : Nat → Nat → Except SyncError Nat
  getLastVerifiedBatches : Nat → Except SyncError VerifyBatchesRec
  getFirstVerifiedBatches : Nat → Except SyncError VerifyBatchesRec
  getFirstVerifiedBatchesAfterBlock : Nat → Nat → Except SyncError VerifyBatchesRec
  getFirstL1InfoWithRollupExitRoot : Nat → Except SyncError L1InfoTreeLeaf
  getLastInfo : Except SyncError L1InfoTreeLeaf
  getFirstInfo : Except SyncError L1InfoTreeLeaf
  getFirstInfoAfterBlock : Nat → Except SyncError L1InfoTreeLeaf
  getInfoByGlobalExitRoot : Nat → Except SyncError L1InfoTreeLeaf
  l1InfoTreeGetProof : Nat → Nat → Except SyncError TreeProof
  getInitL1InfoRootMap : Except SyncError (Option L1InfoTreeInitial)
  getProcessedBlockUntil : Nat → Except SyncError (Nat × Nat)

/-- `l1infotreesync.L1InfoTreeSync`. -/
structure L1InfoTreeSync where
  processor : ProcessorModel

namespace L1InfoTreeSync

/-- `translateError`: `db.ErrNotFound` becomes `l1infotreesync.ErrNotFound`. -/
def translateError : SyncError → SyncError
  | .dbNotFound => .l1SyncNotFound
  | e => e

/-- `L1InfoTreeSync.GetL1InfoTreeMerkleProof`. -/
def GetL1InfoTreeMerkleProof (s : L1InfoTreeSync) (index : Nat) :
    Except SyncError (TreeProof × TreeRoot) :=
  if s.processor.halted then .error .inconsistentState
  else s.processor.getL1InfoTreeMerkleProof index

/-- Modelled from the spec: the `tree` package's zero-subtree roots.  The
level-0 root is the zero leaf hash and each higher level hashes two copies of
the level below; the node hash (keccak256 of the two children) is a
parameter. -/
def zeroSubRoot (node : Nat → Nat → Nat) (zeroLeaf : Nat) : Nat → Nat
  | 0 => zeroLeaf
  | n + 1 => node (zeroSubRoot node zeroLeaf n) (zeroSubRoot node zeroLeaf n)

/-- Modelled from the spec: `tree.EmptyProof` is not under src/.  Spec 4.5:
"Empty proof is the canonical vector of zero-subtree roots." -/
def EmptyProof (node : Nat → Nat → Nat) (zeroLeaf : Nat) : TreeProof :=
  (List.range 32).map (zeroSubRoot node zeroLeaf)

/-- `L1InfoTreeSync.GetRollupExitTreeMerkleProof` (part_008 133-147).  The
node-hash parameters only feed the `tree.EmptyProof` constant. -/
def GetRollupExitTreeMerkleProof (node : Nat → Nat → Nat) (zeroLeaf : Nat)
    (s : L1InfoTreeSync) (networkID : Nat) (root : Nat) : Except SyncError TreeProof :=
  if s.processor.halted then .error .inconsistentState
  else if networkID = 0 then .ok (EmptyProof node zeroLeaf)
  else s.processor.rollupExitTreeGetProof (networkID - 1) root

/-- `L1InfoTreeSync.GetLatestInfoUntilBlock`. -/
def GetLatestInfoUntilBlock (s : L1InfoTreeSync) (blockNum : Nat) :
    Except SyncError L1InfoTreeLeaf :=
  if s.processor.halted then .error .inconsistentState
  else (s.processor.getLatestInfoUntilBlock blockNum).mapError translateError

/-- `L1InfoTreeSync.GetInfoByIndex`. -/
def GetInfoByIndex (s : L1InfoTreeSync) (index : Nat) : Except SyncError L1InfoTreeLeaf :=
  if s.processor.halted then .error .inconsistentState
  else s.processor.getInfoByIndex index

/-- `L1InfoTreeSync.GetL1InfoTreeRootByIndex`. -/
def GetL1InfoTreeRootByIndex (s : L1InfoTreeSync) (index : Nat) : Except SyncError TreeRoot :=
  if s.processor.halted then .error .inconsistentState
  else s.processor.l1InfoTreeGetRootByIndex index

/-- `L1InfoTreeSync.GetLastRollupExitRoot`. -/
def GetLastRollupExitRoot (s : L1InfoTreeSync) : Except SyncError TreeRoot :=
  if s.processor.halted then .error .inconsistentState
  else s.processor.rollupExitTreeGetLastRoot

/-- `L1InfoTreeSync.GetLastL1InfoTreeRoot`. -/
def GetLastL1InfoTreeRoot (s : L1InfoTreeSync) : Except SyncError TreeRoot :=
  if s.processor.halted then .error .inconsistentState
  else s.processor.l1InfoTreeGetLastRoot

/-- `L1InfoTreeSync.GetLastProcessedBlock`. -/
def GetLastProcessedBlock (s : L1InfoTreeSync) : Except SyncError Nat :=
  if s.processor.halted then .error .inconsistentState
  else s.processor.getLastProcessedBlock

/-- `L1InfoTreeSync.GetLocalExitRoot`. -/
def GetLocalExitRoot (s : L1InfoTreeSync) (networkID : Nat) (rollupExitRoot : Nat) :
    Except SyncError Nat :=
  if s.processor.halted then .error .inconsistentState
  else if networkID = 0 then .error .network0NotRollup
  else s.processor.rollupExitTreeGetLeaf (networkID - 1) rollupExitRoot

/-- `L1InfoTreeSync.GetLastVerifiedBatches`. -/
def GetLastVerifiedBatches (s : L1InfoTreeSync) (rollupID : Nat) :
    Except SyncError VerifyBatchesRec :=
  if s.processor.halted then .error .inconsistentState
  else s.processor.getLastVerifiedBatches rollupID

/-- `L1InfoTreeSync.GetFirstVerifiedBatches`. -/
def GetFirstVerifiedBatches (s : L1InfoTreeSync) (rollupID : Nat) :
    Except SyncError VerifyBatchesRec :=
  if s.processor.halted then .error .inconsistentState
  else s.processor.getFirstVerifiedBatches rollupID

/-- `L1InfoTreeSync.GetFirstVerifiedBatchesAfterBlock`. -/
def GetFirstVerifiedBatchesAfterBlock (s : L1InfoTreeSync) (rollupID blockNum : Nat) :
    Except SyncError VerifyBatchesRec :=
  if s.processor.halted then .error .inconsistentState
  else s.processor.getFirstVerifiedBatchesAfterBlock rollupID blockNum

/-- `L1InfoTreeSync.GetFirstL1InfoWithRollupExitRoot`. -/
def GetFirstL1InfoWithRollupExitRoot (s : L1InfoTreeSync) (rollupExitRoot : Nat) :
    Except SyncError L1InfoTreeLeaf :=
  if s.processor.halted then .error .inconsistentState
  else s.processor.getFirstL1InfoWithRollupExitRoot rollupExitRoot

/-- `L1InfoTreeSync.GetLastInfo`. -/
def GetLastInfo (s : L1InfoTreeSync) : Except SyncError L1InfoTreeLeaf :=
  if s.processor.halted then .error .inconsistentState
  else s.processor.getLastInfo

/-- `L1InfoTreeSync.GetFirstInfo`. -/
def GetFirstInfo (s : L1InfoTreeSync) : Except SyncError L1InfoTreeLeaf :=
  if s.processor.halted then .error .inconsistentState
  else s.processor.getFirstInfo

/-- `L1InfoTreeSync.GetFirstInfoAfterBlock`. -/
def GetFirstInfoAfterBlock (s : L1InfoTreeSync) (blockNum : Nat) :
    Except SyncError L1InfoTreeLeaf :=
  if s.processor.halted then .error .inconsistentState
  else s.processor.getFirstInfoAfterBlock blockNum

/-- `L1InfoTreeSync.GetInfoByGlobalExitRoot`. -/
def GetInfoByGlobalExitRoot (s : L1InfoTreeSync) (ger : Nat) :
    Except SyncError L1InfoTreeLeaf :=
  if s.processor.halted then .error .inconsistentState
  else s.processor.getInfoByGlobalExitRoot ger

/-- `L1InfoTreeSync.GetL1InfoTreeMerkleProofFromIndexToRoot`. -/
def GetL1InfoTreeMerkleProofFromIndexToRoot (s : L1InfoTreeSync) (index root : Nat) :
    Except SyncError TreeProof :=
  if s.processor.halted then .error .inconsistentState
  else s.processor.l1InfoTreeGetProof index root

/-- `L1InfoTreeSync.GetInitL1InfoRootMap`. -/
def GetInitL1InfoRootMap (s : L1InfoTreeSync) : Except SyncError (Option L1InfoTreeInitial) :=
  if s.processor.halted then .error .inconsistentState
  else s.processor.getInitL1InfoRootMap

/-- `L1InfoTreeSync.GetProcessedBlockUntil`. -/
def GetProcessedBlockUntil (s : L1InfoTreeSync) (blockNum : Nat) :
    Except SyncError (Nat × Nat) :=
  if s.processor.halted then .error .inconsistentState
  else s.processor.getProcessedBlockUntil blockNum

end L1InfoTreeSync

/-! ## C1 / C2 / C3: the AggchainProverFlow (aggsender/flows/flow_aggchain_prover.go)

Go errors are modelled as an inductive type; `fmt.Errorf("... %w", err)` wraps
and `errors.Is` unwraps.  The injected interfaces (`storage`,
`l2BridgeQuerier`, `l1InfoTreeDataQuerier`, `gerQuerier`, the prover client,
the base flow and the max-L2-block limiter) become function-valued fields of a
`FlowEnv` record.  Flow results additionally record whether the prover client
was invoked during the call. -/

/-- gRPC status codes (only the ones the flow distinguishes). -/
inductive GrpcCode where
  | unavailable
  | otherCode : Nat → GrpcCode
deriving DecidableEq, Repr

/-- Go errors as seen by the flow.  `grpc` is `aggkitgrpc.GRPCError`, `named`
is a package-level sentinel error, `wrap` is `fmt.Errorf` with `%w`, `msg` is
a fresh error value. -/
inductive GoError where
  | grpc (code : GrpcCode) (message : String)
  | named (name : String)
  | msg (text : String)
  | wrap (text : String) (inner : GoError)
deriving DecidableEq, Repr

/-- `errors.Is(err, target)`: unwrap the `%w` chain and compare against the
target.  Modelled from the spec for `aggkitgrpc.GRPCError` (not under src/):
"Error code `Unavailable` with message 'has not built any proof yet' is
treated as a non-fatal 'no proof yet'", i.e. a GRPCError matches the target
when code and message agree; sentinel errors match by identity. -/
def errorsIs : GoError → GoError → Bool
  | .wrap _ inner, target => (GoError.wrap "" inner == target) || errorsIs inner target
  | e, target => e == target

/-- `errNoProofBuiltYet` (flow_aggchain_prover.go 22-25). -/
def errNoProofBuiltYet : GoError :=
  .grpc .unavailable "Proposer service has not built any proof yet"

/-- `errNoNewBlocks`, the sentinel returned by the base flow when there is no
new block to certify. -/
def errNoNewBlocks : GoError :=
  .named "no new blocks to send a certificate"

/-- `bridgesync.Bridge`, restricted to the block number plus an opaque
identifying payload. -/
structure Bridge where
  blockNum : Nat
  depositCount : Nat
deriving DecidableEq, Repr

/-- `bridgesync.Claim`, restricted to the block number plus an opaque
identifying payload. -/
structure Claim where
  blockNum : Nat
  globalIndex : Nat
deriving DecidableEq, Repr

/-- `types.AggchainProof` of the aggsender (SP1 proof bytes kept opaque). -/
structure AggchainProof where
  endBlock : Nat
  proof : List Nat
  aggchainParams : Nat
deriving DecidableEq, Repr

/-- `agglayertypes.ImportedBridgeExitWithBlockNumber`, with the converted
imported bridge exit kept opaque. -/
structure ImportedBridgeExitWithBlockNumber where
  importedBridgeExit : Nat
  blockNumber : Nat
deriving DecidableEq, Repr

/-- `types.AggchainProofRequest` (the message sent to the aggkit prover). -/
structure AggchainProofRequest where
  lastProvenBlock : Nat
  requestedEndBlock : Nat
  l1InfoTreeRootHash : Nat
  l1InfoTreeLeaf : L1InfoTreeLeaf
  l1InfoTreeMerkleProof : TreeProof
  gerLeavesWithBlockNumber : List Nat
  importedBridgeExitsWithBlockNumber : List ImportedBridgeExitWithBlockNumber

/-- `types.CertificateBuildParams`, restricted to the fields the embedded flow
reads or writes. -/
structure CertificateBuildParams where
  fromBlock : Nat
  toBlock : Nat
  retryCount : Nat
  bridges : List Bridge
  claims : List Claim
  lastSentCertificate : Option CertificateHeader
  createdAt : Nat
  certificateType : CertificateType
  aggchainProof : Option AggchainProof
  l1InfoTreeRootFromWhichToProve : Nat
  l1InfoTreeLeafCount : Nat
  extraData : Option Nat
deriving DecidableEq, Repr

/-- Modelled from the spec: `types.CertificateBuildParams.Range` is not under
src/.  Spec 4.9 step 7: "If it returns a smaller `endBlock` than requested,
shrink the range: drop bridges/claims with `blockNum > endBlock` and set
`toBlock := endBlock`" — the kept bridges and claims are the ones inside the
new `[fromBlock, toBlock]` window. -/
def CertificateBuildParams.range (c : CertificateBuildParams) (fromBlock toBlock : Nat) :
    Except GoError CertificateBuildParams :=
  .ok { c with
    fromBlock := fromBlock
    toBlock := toBlock
    bridges := c.bridges.filter (fun b => fromBlock ≤ b.blockNum && b.blockNum ≤ toBlock)
    claims := c.claims.filter (fun cl => fromBlock ≤ cl.blockNum && cl.blockNum ≤ toBlock) }

/-- Whether the build params describe a retry of an InError certificate. -/
def CertificateBuildParams.isRetryOfInError (c : CertificateBuildParams) : Bool :=
  match c.lastSentCertificate with
  | some h => h.status.IsInError
  | none => false

/-- Modelled from the spec: `MaxL2BlockNumberLimiter.AdaptCertificate` is not
under src/.  Spec 4.9 step 2 caps a fresh certificate at the configured max L2
block (`toBlock = min(lastProcessedL2, configuredMaxL2Block)`; the feature is
disabled when the configured value is 0), while step 1 requires an InError
retry to keep the exact same range, so a retry certificate is returned
unchanged. -/
def maxL2BlockAdaptCertificate (maxL2BlockNumber : Nat) (c : CertificateBuildParams) :
    Except GoError CertificateBuildParams :=
  if maxL2BlockNumber = 0 then .ok c
  else if c.isRetryOfInError then .ok c
  else if maxL2BlockNumber < c.toBlock then c.range c.fromBlock maxL2BlockNumber
  else .ok c

/-- The injected dependencies of `AggchainProverFlow`, as one environment
record: each field is the observable behaviour of one interface call. -/
structure FlowEnv where
  /-- `storage.GetLastSentCertificateHeaderWithProofIfInError`. -/
  lastSentCertWithProof : Except GoError (Option CertificateHeader × Option AggchainProof)
  /-- `optimisticModeQuerier.IsOptimisticModeOn`. -/
  isOptimisticModeOn : Except GoError Bool
  /-- `l2BridgeQuerier.GetBridgesAndClaims fromBlock toBlock`. -/
  getBridgesAndClaims : Nat → Nat → Except GoError (List Bridge × List Claim)
  /-- `featureMaxL2Block.AdaptCertificate` (interface-valued field). -/
  adaptCertificate : CertificateBuildParams → Except GoError CertificateBuildParams
  /-- `baseFlow.GetCertificateBuildParamsInternal`. -/
  getBuildParamsInternal : CertificateType → Except GoError CertificateBuildParams
  /-- `baseFlow.VerifyBuildParams`. -/
  verifyBuildParams : CertificateBuildParams → Except GoError Unit
  /-- `baseFlow.StartL2Block`. -/
  startL2Block : Nat
  /-- `l1InfoTreeDataQuerier.GetFinalizedL1InfoTreeData`: proof, leaf, root. -/
  finalizedL1InfoTreeData : Except GoError (TreeProof × L1InfoTreeLeaf × TreeRoot)
  /-- `l1InfoTreeDataQuerier.CheckIfClaimsArePartOfFinalizedL1InfoTree`. -/
  checkClaims : TreeRoot → List Claim → Except GoError Unit
  /-- `gerQuerier.GetInjectedGERsProofs root fromBlock toBlock`. -/
  getInjectedGERsProofs : TreeRoot → Nat → Nat → Except GoError (List Nat)
  /-- `baseFlow.ConvertClaimToImportedBridgeExit`. -/
  convertClaim : Claim → Except GoError Nat
  /-- `aggchainProofClient.GenerateAggchainProof`. -/
  generateAggchainProofClient : AggchainProofRequest → Except GoError AggchainProof
  /-- `aggchainProofClient.GenerateOptimisticAggchainProof`. -/
  generateOptimisticAggchainProofClient :
    AggchainProofRequest → Nat → Except GoError AggchainProof
  /-- `baseFlow.GetNewLocalExitRoot`. -/
  getNewLocalExitRoot : CertificateBuildParams → Except GoError Nat
  /-- `optimisticSigner.Sign`: yields the signature and the extra data. -/
  optimisticSign : AggchainProofRequest → Nat → List Claim → Except GoError (Nat × Nat)

/-- `AggchainProverFlow.getCertificateTypeToGenerate` (148-159). -/
def getCertificateTypeToGenerate (env : FlowEnv) : Except GoError CertificateType :=
  match env.isOptimisticModeOn with
  | .error e => .error (.wrap "getCertificateTypeToGenerate - error getting optimistic mode" e)
  | .ok true => .ok .optimistic
  | .ok false => .ok .fep

/-- `AggchainProverFlow.getImportedBridgeExitsForProver` (328-347). -/
def getImportedBridgeExitsForProver (env : FlowEnv) :
    List Claim → Except GoError (List ImportedBridgeExitWithBlockNumber)
  | [] => .ok []
  | claim :: rest =>
    match env.convertClaim claim with
    | .error e =>
      .error (.wrap "aggchainProverFlow - error converting claim to imported bridge exit" e)
    | .ok ibe =>
      match getImportedBridgeExitsForProver env rest with
      | .error e => .error e
      | .ok ibes => .ok ({ importedBridgeExit := ibe, blockNumber := claim.blockNum } :: ibes)

/-- `AggchainProverFlow.generateOptimisticAggchainProof` (428-450): the pair
result carries the possibly updated build params (the Go code mutates
`certBuildParams.ExtraData` through a pointer); the flag records a prover
client call. -/
def generateOptimisticAggchainProof (env : FlowEnv)
    (certBuildParams : CertificateBuildParams) (request : AggchainProofRequest) :
    Except GoError (AggchainProof × CertificateBuildParams) × Bool :=
  match env.getNewLocalExitRoot certBuildParams with
  | .error e =>
    (.error (.wrap "generateOptimisticAggchainProof - error getting new local exit root" e), false)
  | .ok newLER =>
    match env.optimisticSign request newLER certBuildParams.claims with
    | .error e =>
      (.error (.wrap "generateOptimisticAggchainProof - error signing aggchain proof request" e),
        false)
    | .ok (sign, extraData) =>
      let certBuildParams := { certBuildParams with extraData := some extraData }
      match env.generateOptimisticAggchainProofClient request sign with
      | .error e =>
        (.error (.wrap "generateOptimisticAggchainProof - error request aggkit-prover optimistic" e),
          true)
      | .ok aggchainProof => (.ok (aggchainProof, certBuildParams), true)

/-- `AggchainProverFlow.GenerateAggchainProof` (366-425).  The triple result
also returns the build params (whose `ExtraData` the optimistic path updates
in place in Go); the flag records whether a prover client call was reached. -/
def GenerateAggchainProof (env : FlowEnv) (lastProvenBlock toBlock : Nat)
    (certBuildParams : CertificateBuildParams) :
    Except GoError (AggchainProof × TreeRoot × CertificateBuildParams) × Bool :=
  match env.finalizedL1InfoTreeData with
  | .error e =>
    (.error (.wrap "aggchainProverFlow - error getting finalized L1 Info tree data" e), false)
  | .ok (proof, leaf, root) =>
    match env.checkClaims root certBuildParams.claims with
    | .error e =>
      (.error (.wrap "aggchainProverFlow - error checking if claims are part of finalized L1 Info tree root" e),
        false)
    | .ok _ =>
      let fromBlock := lastProvenBlock + 1
      match env.getInjectedGERsProofs root fromBlock toBlock with
      | .error e =>
        (.error (.wrap "aggchainProverFlow - error getting injected GERs proofs" e), false)
      | .ok injectedGERsProofs =>
        match getImportedBridgeExitsForProver env certBuildParams.claims with
        | .error e =>
          (.error (.wrap "aggchainProverFlow - error getting imported bridge exits for prover" e),
            false)
        | .ok importedBridgeExits =>
          let request : AggchainProofRequest :=
            { lastProvenBlock := lastProvenBlock
              requestedEndBlock := toBlock
              l1InfoTreeRootHash := root.hash
              l1InfoTreeLeaf := leaf
              l1InfoTreeMerkleProof := proof
              gerLeavesWithBlockNumber := injectedGERsProofs
              importedBridgeExitsWithBlockNumber := importedBridgeExits }
          let optimisticMode := certBuildParams.certificateType = CertificateType.optimistic
          if !optimisticMode then
            match env.generateAggchainProofClient request with
            | .error e =>
              (.error (.wrap "aggchainProverFlow - error fetching aggchain proof" e), true)
            | .ok aggchainProof => (.ok (aggchainProof, root, certBuildParams), true)
          else
            match generateOptimisticAggchainProof env certBuildParams request with
            | (.error e, called) =>
              (.error (.wrap "aggchainProverFlow - error fetching aggchain proof" e), called)
            | (.ok (aggchainProof, certBuildParams), called) =>
              (.ok (aggchainProof, root, certBuildParams), called)

/-- `adjustBlockRange` (350-363). -/
def adjustBlockRange (buildParams : CertificateBuildParams)
    (requestedToBlock aggchainProverToBlock : Nat) : Except GoError CertificateBuildParams :=
  if requestedToBlock ≠ aggchainProverToBlock then
    match buildParams.range buildParams.fromBlock aggchainProverToBlock with
    | .error e =>
      .error (.wrap "aggchainProverFlow - error adjusting the range of the certificate" e)
    | .ok adjusted => .ok adjusted
  else
    .ok buildParams

/-- The result of one `GetCertificateBuildParams` call: the Go
`(*CertificateBuildParams, error)` pair plus whether a prover client call was
reached during the tick. -/
structure FlowOutcome where
  result : Except GoError (Option CertificateBuildParams)
  proverCalled : Bool
deriving Repr

/-- `AggchainProverFlow.verifyBuildParamsAndGenerateProof` (266-297). -/
def verifyBuildParamsAndGenerateProof (env : FlowEnv)
    (buildParams : CertificateBuildParams) : FlowOutcome :=
  match env.verifyBuildParams buildParams with
  | .error e =>
    { result := .error (.wrap "aggchainProverFlow - error verifying build params" e)
      proverCalled := false }
  | .ok _ =>
    let lastProvenBlock :=
      getLastProvenBlock env.startL2Block buildParams.fromBlock buildParams.lastSentCertificate
    match GenerateAggchainProof env lastProvenBlock buildParams.toBlock buildParams with
    | (.error e, called) =>
      if errorsIs e errNoProofBuiltYet then
        { result := .ok none, proverCalled := called }
      else
        { result := .error (.wrap "aggchainProverFlow - error generating aggchain proof" e)
          proverCalled := called }
    | (.ok (aggchainProof, root, buildParams), called) =>
      let buildParams := { buildParams with
        l1InfoTreeRootFromWhichToProve := root.hash
        aggchainProof := some aggchainProof
        l1InfoTreeLeafCount := root.index + 1 }
      match adjustBlockRange buildParams buildParams.toBlock aggchainProof.endBlock with
      | .error e => { result := .error e, proverCalled := called }
      | .ok adjusted => { result := .ok (some adjusted), proverCalled := called }

/-- The non-retry tail of `GetCertificateBuildParams` (237-261). -/
def getCertificateBuildParamsFresh (env : FlowEnv)
    (lastSentCert : Option CertificateHeader) (typeCert : CertificateType) : FlowOutcome :=
  match env.getBuildParamsInternal typeCert with
  | .error e =>
    if errorsIs e errNoNewBlocks then { result := .ok none, proverCalled := false }
    else { result := .error e, proverCalled := false }
  | .ok buildParams =>
    match env.adaptCertificate buildParams with
    | .error e =>
      { result := .error (.wrap "aggchainProverFlow - error adapting certificate to MaxL2Block" e)
        proverCalled := false }
    | .ok buildParams =>
      let lastProvenBlock := getLastProvenBlock env.startL2Block buildParams.fromBlock lastSentCert
      let buildParams :=
        if buildParams.fromBlock ≠ lastProvenBlock + 1 then
          { buildParams with fromBlock := lastProvenBlock + 1 }
        else buildParams
      verifyBuildParamsAndGenerateProof env buildParams

/-- The InError-retry branch of `GetCertificateBuildParams` (176-229), entered
with the stored header and optional cached proof. -/
def getCertificateBuildParamsRetry (env : FlowEnv) (lastSentCert : CertificateHeader)
    (proof : Option AggchainProof) (typeCert : CertificateType) : FlowOutcome :=
  let fromBlock := lastSentCert.fromBlock
  let toBlock := lastSentCert.toBlock
  match env.getBridgesAndClaims fromBlock toBlock with
  | .error e =>
    { result := .error (.wrap "aggchainProverFlow - error getting bridges and claims" e)
      proverCalled := false }
  | .ok (bridges, claims) =>
    let buildParams : CertificateBuildParams :=
      { fromBlock := fromBlock
        toBlock := toBlock
        retryCount := lastSentCert.retryCount + 1
        bridges := bridges
        claims := claims
        lastSentCertificate := some lastSentCert
        createdAt := lastSentCert.createdAt
        certificateType := typeCert
        aggchainProof := none
        l1InfoTreeRootFromWhichToProve := 0
        l1InfoTreeLeafCount := 0
        extraData := none }
    match env.adaptCertificate buildParams with
    | .error e =>
      { result := .error (.wrap "aggchainProverFlow - error adapting certificate to MaxL2Block" e)
        proverCalled := false }
    | .ok buildParams =>
      match proof with
      | none => verifyBuildParamsAndGenerateProof env buildParams
      | some proof =>
        { result := .ok (some { buildParams with
            aggchainProof := some proof
            l1InfoTreeRootFromWhichToProve := lastSentCert.finalizedL1InfoTreeRoot.getD 0
            l1InfoTreeLeafCount := lastSentCert.l1InfoTreeLeafCount })
          proverCalled := false }

/-- `AggchainProverFlow.GetCertificateBuildParams` (166-262). -/
def GetCertificateBuildParams (env : FlowEnv) : FlowOutcome :=
  match env.lastSentCertWithProof with
  | .error e =>
    { result :=
        .error (.wrap "aggchainProverFlow - error checking if last sent certificate is InError" e)
      proverCalled := false }
  | .ok (lastSentCert, proof) =>
    match getCertificateTypeToGenerate env with
    | .error e =>
      { result :=
          .error (.wrap "aggchainProverFlow - error getting certificate type to generate" e)
        proverCalled := false }
    | .ok typeCert =>
      match lastSentCert with
      | some cert =>
        if cert.status.IsInError && cert.certType = typeCert then
          getCertificateBuildParamsRetry env cert proof typeCert
        else
          getCertificateBuildParamsFresh env lastSentCert typeCert
      | none => getCertificateBuildParamsFresh env lastSentCert typeCert

/-- Modelled from the spec: the aggsender tick stores a certificate header
only when `GetCertificateBuildParams` produced build params (spec 4.9 /
testable property: "When the prover returns `NoProofBuiltYet`, no header is
written to storage for the current tick"; "If the prover returns
`NoProofBuiltYet`, emit nothing (try next tick)"). -/
def tickWritesHeader (env : FlowEnv) : Bool :=
  match (GetCertificateBuildParams env).result with
  | .ok (some _) => true
  | _ => false

/-! ## C5: EpochNotifierPerBlock (aggsender, part_006 1-228)

The Go code computes epoch percentages in `float64`; the embedding uses exact
rationals.  All ratios involved are quotients of machine integers and the
comparisons performed by the code agree between the two readings. -/

/-- `ConfigEpochNotifierPerBlock`. -/
structure ConfigEpochNotifierPerBlock where
  startingEpochBlock : Nat
  numBlockPerEpoch : Nat
  epochNotificationPercentage : Nat
deriving DecidableEq, Repr

namespace EpochNotifier

/-- `ConfigEpochNotifierPerBlock.Validate` (60-68): `maxPercent = 100`. -/
def validate (c : ConfigEpochNotifierPerBlock) : Bool :=
  c.numBlockPerEpoch ≠ 0 && c.epochNotificationPercentage < 100

/-- `epochNumber` (223-228). -/
def epochNumber (c : ConfigEpochNotifierPerBlock) (currentBlock : Nat) : Nat :=
  if currentBlock < c.startingEpochBlock then 0
  else 1 + ((currentBlock - c.startingEpochBlock) / c.numBlockPerEpoch)

/-- `startingBlockEpoch` (213-218).  The epoch-0 branch performs a `uint64`
subtraction that the embedded paths only reach with `epoch ≥ 1`. -/
def startingBlockEpoch (c : ConfigEpochNotifierPerBlock) (epoch : Nat) : Nat :=
  if epoch = 0 then c.startingEpochBlock - 1
  else c.startingEpochBlock + (epoch - 1) * c.numBlockPerEpoch

/-- `endBlockEpoch` (220-222). -/
def endBlockEpoch (c : ConfigEpochNotifierPerBlock) (epoch : Nat) : Nat :=
  startingBlockEpoch c (epoch + 1)

/-- `percentEpoch` (193-198). -/
def percentEpoch (c : ConfigEpochNotifierPerBlock) (currentBlock : Nat) : ℚ :=
  let epoch := epochNumber c currentBlock
  let startingBlock := startingBlockEpoch c epoch
  let elapsedBlocks := currentBlock - startingBlock
  (elapsedBlocks : ℚ) / (c.numBlockPerEpoch : ℚ)

/-- `isNotificationRequired` (199-211). -/
def isNotificationRequired (c : ConfigEpochNotifierPerBlock)
    (currentBlock lastEpochNotified : Nat) : Bool × Nat :=
  let percent := percentEpoch c currentBlock
  let thresholdPercent : ℚ := (c.epochNotificationPercentage : ℚ) / 100
  let maxThresholdPercent : ℚ :=
    ((c.numBlockPerEpoch - 1 : Nat) : ℚ) / (c.numBlockPerEpoch : ℚ)
  let thresholdPercent :=
    if thresholdPercent > maxThresholdPercent then maxThresholdPercent else thresholdPercent
  if percent < thresholdPercent then (false, epochNumber c currentBlock)
  else
    let nextEpoch := epochNumber c currentBlock + 1
    (decide (nextEpoch > lastEpochNotified), epochNumber c currentBlock)

/-- `internalStatus` (146-149). -/
structure InternalStatus where
  lastBlockSeen : Nat
  waitingForEpoch : Nat
deriving DecidableEq, Repr

/-- `types.EpochEvent` with the `ExtraInfoEventEpoch{PendingBlocks}` payload
inlined (`infoEpoch`, 187-192). -/
structure EpochEvent where
  epoch : Nat
  pendingBlocks : Nat
deriving DecidableEq, Repr

/-- `EpochNotifierPerBlock.step` (151-185), with the new-block event reduced
to its block number. -/
def step (c : ConfigEpochNotifierPerBlock) (status : InternalStatus) (newBlockNum : Nat) :
    InternalStatus × Option EpochEvent :=
  if newBlockNum < c.startingEpochBlock then (status, none)
  else if newBlockNum ≤ status.lastBlockSeen then (status, none)
  else
    let status := { status with lastBlockSeen := newBlockNum }
    let notif := isNotificationRequired c newBlockNum status.waitingForEpoch
    let needNotify := notif.1
    let closingEpoch := notif.2
    if needNotify then
      ({ status with waitingForEpoch := closingEpoch + 1 },
        some { epoch := closingEpoch
               pendingBlocks := endBlockEpoch c closingEpoch - newBlockNum })
    else (status, none)

/-- The starting status set up by `startInternal` (126-130). -/
def initialStatus (c : ConfigEpochNotifierPerBlock) : InternalStatus :=
  { lastBlockSeen := c.startingEpochBlock
    waitingForEpoch := epochNumber c c.startingEpochBlock }

/-- The event stream published by `startInternal` (131-144) over a finite
stream of new-block notifications: each published event is paired with the
block at which it fired. -/
def runBlocks (c : ConfigEpochNotifierPerBlock) (status : InternalStatus) :
    List Nat → List (Nat × EpochEvent)
  | [] => []
  | b :: bs =>
    match step c status b with
    | (status, some event) => (b, event) :: runBlocks c status bs
    | (status, none) => runBlocks c status bs

end EpochNotifier

/-! ## C6: one iteration of EVMDownloader.Download (sync/evmdownloader.go 126-229) -/

/-- `sync.EVMBlockHeader`. -/
structure EVMBlockHeader where
  num : Nat
  hash : Nat
  parentHash : Nat
  timestamp : Nat
deriving DecidableEq, Repr

/-- `sync.EVMBlock`, with events kept opaque. -/
structure EVMBlock where
  header : EVMBlockHeader
  events : List Nat
  isFinalizedBlock : Bool
deriving DecidableEq, Repr

/-- A block assembled by `GetEventsByBlockRange` (before the finality flag is
stamped on it). -/
structure ProducedBlock where
  header : EVMBlockHeader
  events : List Nat
deriving DecidableEq, Repr

namespace Downloader

/-- `EVMDownloader.reportBlocks` (208-214): stamp the finality flag and send
every produced block.  `isFinalizedType` is `d.finalizedBlockType.IsFinalized()`. -/
def reportBlocks (isFinalizedType : Bool) (lastFinalizedBlock : Nat)
    (blocks : List ProducedBlock) : List EVMBlock :=
  blocks.map (fun b =>
    { header := b.header
      events := b.events
      isFinalizedBlock := isFinalizedType && b.header.num ≤ lastFinalizedBlock })

/-- `EVMDownloader.reportEmptyBlock` (216-229): fetch the header of
`blockNum` and send it without events.  `getHeader` is the
`GetBlockHeader` dependency (the cancellation path is not modelled). -/
def reportEmptyBlock (isFinalizedType : Bool) (getHeader : Nat → EVMBlockHeader)
    (blockNum lastFinalizedBlock : Nat) : EVMBlock :=
  let header := getHeader blockNum
  { header := header
    events := []
    isFinalizedBlock := isFinalizedType && header.num ≤ lastFinalizedBlock }

/-- The state carried between iterations of the `Download` loop, plus the
blocks emitted on the downloaded channel during one iteration. -/
structure IterationResult where
  emitted : List EVMBlock
  fromBlock : Nat
  toBlock : Nat
  reachTop : Bool
deriving DecidableEq, Repr

/-- The Go guard `blocks.Len() == 0 || blocks[blocks.Len()-1].Num < requestToBlock`
(line 176). -/
def needsEmptyBlock (blocks : List ProducedBlock) (requestToBlock : Nat) : Bool :=
  match blocks.getLast? with
  | none => true
  | some b => b.header.num < requestToBlock

/-- One iteration of `EVMDownloader.Download` (lines 153-199): from the
scanned range and the oracle answers (`lastFinalizedHeaderNum` from
`GetLastFinalizedBlock`, `blocks` from `GetEventsByBlockRange`) to the emitted
blocks and the next loop state. -/
def downloadIteration (isFinalizedType : Bool) (syncBlockChunkSize : Nat)
    (getHeader : Nat → EVMBlockHeader) (fromBlock toBlock lastBlock : Nat)
    (lastFinalizedHeaderNum : Nat) (blocks : List ProducedBlock) : IterationResult :=
  let lastFinalizedBlockNumber := min lastBlock lastFinalizedHeaderNum
  let requestToBlock := if toBlock ≥ lastBlock then lastBlock else toBlock
  let reachTop := toBlock ≥ lastBlock
  if requestToBlock ≤ lastFinalizedBlockNumber then
    let reported := reportBlocks isFinalizedType lastFinalizedBlockNumber blocks
    let emitted :=
      if needsEmptyBlock blocks requestToBlock then
        reported ++
          [reportEmptyBlock isFinalizedType getHeader requestToBlock lastFinalizedBlockNumber]
      else reported
    { emitted := emitted
      fromBlock := requestToBlock + 1
      toBlock := requestToBlock + 1 + syncBlockChunkSize
      reachTop := reachTop }
  else
    if blocks.length = 0 then
      if lastFinalizedBlockNumber ≥ fromBlock then
        let emptyBlock := lastFinalizedBlockNumber
        { emitted :=
            [reportEmptyBlock isFinalizedType getHeader emptyBlock lastFinalizedBlockNumber]
          fromBlock := emptyBlock + 1
          toBlock := emptyBlock + 1 + syncBlockChunkSize
          reachTop := reachTop }
      else
        { emitted := []
          fromBlock := fromBlock
          toBlock := toBlock + syncBlockChunkSize
          reachTop := reachTop }
    else
      let lastNum := (blocks.getLast?.map (fun b => b.header.num)).getD 0
      { emitted := reportBlocks isFinalizedType lastFinalizedBlockNumber blocks
        fromBlock := lastNum + 1
        toBlock := lastNum + 1 + syncBlockChunkSize
        reachTop := reachTop }

end Downloader

/-! ## C8: the claim-proof binary search (bridgeservice/bridge.go 963-1067)

The two searches (`getFirstL1InfoTreeIndexForL1Bridge` over L1 info leaves and
`getFirstL1InfoTreeIndexForL2Bridge` over verified batches) run the same loop;
it is embedded once, generically in the probed entry type.  The probed store
queries are not under src/ and are modelled from the spec:
`GetFirstInfoAfterBlock` / `GetFirstVerifiedBatchesAfterBlock` return the
first stored entry at or after a block (entries kept in ascending block
order), and `GetRootByLER` resolves a local exit root to the bridge tree root
whose `Index` the search compares with the deposit count. -/

/-- Errors of the embedded bridge-service lookups.  `stuck` marks a loop
iteration bound exhausted: the Go loop would still be running. -/
inductive BridgeErr where
  | notFound
  | notOnL1Info
  | stuck
deriving DecidableEq, Repr

namespace BridgeService

/-- `binarySearchDivider` (bridge.go 55). -/
def binarySearchDivider : Nat := 2

/-- `uint64` wrap-around of `targetBlock - 1` (reachable in Go only when
`targetBlock = 0`). -/
def u64sub1 (n : Nat) : Nat :=
  if n = 0 then 2 ^ 64 - 1 else n - 1

/-- Modelled from the spec: `GetFirstInfoAfterBlock` /
`GetFirstVerifiedBatchesAfterBlock` return the first stored entry whose block
number is at or after the given block, `db.ErrNotFound` otherwise. -/
def findFirstAtOrAfter (blockOf : α → Nat) (entries : List α) (blockNum : Nat) :
    Except BridgeErr α :=
  match entries.find? (fun e => decide (blockNum ≤ blockOf e)) with
  | some e => .ok e
  | none => .error .notFound

/-- Modelled from the spec: `GetRootByLER` resolves an exit root to the index
of the bridge tree root it denotes (`db.ErrNotFound` when unknown); the table
lists the `(exit root, root index)` pairs of the bridge store. -/
def getRootIndexByLER (table : List (Nat × Nat)) (ler : Nat) : Except BridgeErr Nat :=
  match table.lookup ler with
  | some i => .ok i
  | none => .error .notFound

/-- The shared binary-search loop of bridge.go 988-1007 and 1041-1060, with an
explicit iteration bound (the Go loop runs unboundedly). -/
def coveringSearchLoop (blockOf keyOf : α → Nat) (entries : List α)
    (table : List (Nat × Nat)) (depositCount : Nat) :
    Nat → Nat → Nat → α → Except BridgeErr α
  | 0, _, _, _ => .error .stuck
  | fuel + 1, lowerLimit, upperLimit, bestResult =>
    if lowerLimit ≤ upperLimit then
      let targetBlock := lowerLimit + (upperLimit - lowerLimit) / binarySearchDivider
      match findFirstAtOrAfter blockOf entries targetBlock with
      | .error e => .error e
      | .ok targetInfo =>
        match getRootIndexByLER table (keyOf targetInfo) with
        | .error e => .error e
        | .ok rootIndex =>
          if rootIndex < depositCount then
            coveringSearchLoop blockOf keyOf entries table depositCount
              fuel (targetBlock + 1) upperLimit bestResult
          else if rootIndex = depositCount then
            .ok targetInfo
          else
            coveringSearchLoop blockOf keyOf entries table depositCount
              fuel lowerLimit (u64sub1 targetBlock) targetInfo
    else
      .ok bestResult

/-- The L1 side of the bridge service store: the L1 info leaves in insertion
order (ascending block number) and the L1 bridge root index of each mainnet
exit root. -/
structure L1BridgeIndexStore where
  leaves : List L1InfoTreeLeaf
  rootIndexByLER : List (Nat × Nat)
deriving Repr

/-- `BridgeService.getFirstL1InfoTreeIndexForL1Bridge` (963-1010).  The
iteration bound `upperLimit + 2 - lowerLimit` exceeds the number of loop
iterations whenever the Go loop terminates without a `uint64` wrap. -/
def getFirstL1InfoTreeIndexForL1Bridge (store : L1BridgeIndexStore) (depositCount : Nat) :
    Except BridgeErr Nat :=
  match store.leaves.getLast? with
  | none => .error .notFound
  | some lastInfo =>
    match getRootIndexByLER store.rootIndexByLER lastInfo.mainnetExitRoot with
    | .error e => .error e
    | .ok rootIndex =>
      if rootIndex < depositCount then .error .notOnL1Info
      else
        match store.leaves.head? with
        | none => .error .notFound
        | some firstInfo =>
          let lowerLimit := firstInfo.blockNumber
          let upperLimit := lastInfo.blockNumber
          match coveringSearchLoop (fun l => l.blockNumber) (fun l => l.mainnetExitRoot)
              store.leaves store.rootIndexByLER depositCount
              (upperLimit + 2 - lowerLimit) lowerLimit upperLimit lastInfo with
          | .error e => .error e
          | .ok bestResult => .ok bestResult.l1InfoTreeIndex

/-- The L2 side of the bridge service store: the verified-batches records of
the configured rollup in insertion order (ascending block number), the L2
bridge root index of each local exit root, and the L1 info leaves used to
resolve `GetFirstL1InfoWithRollupExitRoot`. -/
structure L2BridgeIndexStore where
  verifiedBatches : List VerifyBatchesRec
  rootIndexByLER : List (Nat × Nat)
  leaves : List L1InfoTreeLeaf
deriving Repr

/-- Modelled from the spec: `GetFirstL1InfoWithRollupExitRoot` returns the
first (lowest block, lowest position) L1 info leaf carrying the given rollup
exit root, `db.ErrNotFound` otherwise. -/
def firstL1InfoWithRollupExitRoot (leaves : List L1InfoTreeLeaf) (rollupExitRoot : Nat) :
    Except BridgeErr L1InfoTreeLeaf :=
  match leaves.find? (fun l => decide (l.rollupExitRoot = rollupExitRoot)) with
  | some l => .ok l
  | none => .error .notFound

/-- `BridgeService.getFirstL1InfoTreeIndexForL2Bridge` (1012-1067). -/
def getFirstL1InfoTreeIndexForL2Bridge (store : L2BridgeIndexStore) (depositCount : Nat) :
    Except BridgeErr Nat :=
  match store.verifiedBatches.getLast? with
  | none => .error .notFound
  | some lastVerified =>
    match getRootIndexByLER store.rootIndexByLER lastVerified.exitRoot with
    | .error e => .error e
    | .ok rootIndex =>
      if rootIndex < depositCount then .error .notOnL1Info
      else
        match store.verifiedBatches.head? with
        | none => .error .notFound
        | some firstVerified =>
          let lowerLimit := firstVerified.blockNumber
          let upperLimit := lastVerified.blockNumber
          match coveringSearchLoop (fun v => v.blockNumber) (fun v => v.exitRoot)
              store.verifiedBatches store.rootIndexByLER depositCount
              (upperLimit + 2 - lowerLimit) lowerLimit upperLimit lastVerified with
          | .error e => .error e
          | .ok bestResult =>
            match firstL1InfoWithRollupExitRoot store.leaves bestResult.rollupExitRoot with
            | .error e => .error e
            | .ok info => .ok info.l1InfoTreeIndex

/-- The covering predicate decided by the search probes: the entry's exit
root resolves to a bridge root index at or above the deposit count. -/
def coveringB (keyOf : α → Nat) (table : List (Nat × Nat)) (depositCount : Nat) (e : α) :
    Bool :=
  match table.lookup (keyOf e) with
  | some i => decide (depositCount ≤ i)
  | none => false

/-- In a list strictly sorted by `blockOf`, a successful `find?` returns a
member satisfying the predicate whose strict block-predecessors all fail
it. -/
theorem find?_some_sorted (blockOf : α → Nat) (P : α → Bool) :
    ∀ (l : List α), l.Pairwise (fun a b => blockOf a < blockOf b) →
      ∀ x, l.find? P = some x →
        x ∈ l ∧ P x = true ∧ ∀ y ∈ l, blockOf y < blockOf x → P y = false
  | [], _, x, hx => by simp at hx
  | a :: t, hpw, x, hx => by
    have hpc := List.pairwise_cons.mp hpw
    by_cases hPa : P a = true
    · rw [List.find?_cons_of_pos _ hPa] at hx
      cases hx
      refine ⟨List.mem_cons_self _ _, hPa, ?_⟩
      intro y hy hlt
      rcases List.mem_cons.mp hy with rfl | hy
      · omega
      · exact absurd (hpc.1 y hy) (by omega)
    · rw [List.find?_cons_of_neg _ (by simpa using hPa)] at hx
      obtain ⟨hmem, hPx, hpred⟩ := find?_some_sorted blockOf P t hpc.2 x hx
      refine ⟨List.mem_cons_of_mem a hmem, hPx, ?_⟩
      intro y hy hlt
      rcases List.mem_cons.mp hy with rfl | hy
      · exact Bool.eq_false_iff.mpr hPa
      · exact hpred y hy hlt

/-- In a list strictly sorted by `blockOf`, a member satisfying the predicate
whose strict block-predecessors all fail it is the `find?` result. -/
theorem find?_eq_some_of_first (blockOf : α → Nat) (P : α → Bool) :
    ∀ (l : List α), l.Pairwise (fun a b => blockOf a < blockOf b) →
      ∀ x, x ∈ l → P x = true → (∀ y ∈ l, blockOf y < blockOf x → P y = false) →
        l.find? P = some x
  | [], _, x, hx, _, _ => by simp at hx
  | a :: t, hpw, x, hx, hPx, hpred => by
    have hpc := List.pairwise_cons.mp hpw
    rcases List.mem_cons.mp hx with rfl | hx
    · rw [List.find?_cons_of_pos _ hPx]
    · have hax : blockOf a < blockOf x := hpc.1 x hx
      have hPa : P a = false := hpred a (List.mem_cons_self _ _) hax
      rw [List.find?_cons_of_neg _ (by simp [hPa])]
      exact find?_eq_some_of_first blockOf P t hpc.2 x hx hPx
        (fun y hy hlt => hpred y (List.mem_cons_of_mem a hy) hlt)

/-- In a list strictly sorted by `blockOf`, members are determined by their
block numbers. -/
theorem eq_of_blockOf_eq (blockOf : α → Nat) :
    ∀ (l : List α), l.Pairwise (fun a b => blockOf a < blockOf b) →
      ∀ x ∈ l, ∀ y ∈ l, blockOf x = blockOf y → x = y
  | [], _, x, hx, _, _, _ => by simp at hx
  | a :: t, hpw, x, hx, y, hy, hxy => by
    have hpc := List.pairwise_cons.mp hpw
    rcases List.mem_cons.mp hx with hxa | hxt
    · rcases List.mem_cons.mp hy with hya | hyt
      · rw [hxa, hya]
      · have := hpc.1 y hyt
        rw [hxa] at hxy
        omega
    · rcases List.mem_cons.mp hy with hya | hyt
      · have := hpc.1 x hxt
        rw [hya] at hxy
        omega
      · exact eq_of_blockOf_eq blockOf t hpc.2 x hxt y hyt hxy

/-- A pairwise relation on a strictly block-sorted list holds between any two
members in block order. -/
theorem rel_of_blockOf_lt {R : α → α → Prop} (blockOf : α → Nat) :
    ∀ (l : List α), l.Pairwise (fun a b => blockOf a < blockOf b) → l.Pairwise R →
      ∀ x ∈ l, ∀ y ∈ l, blockOf x < blockOf y → R x y
  | [], _, _, x, hx, _, _, _ => by simp at hx
  | a :: t, hpw, hR, x, hx, y, hy, hxy => by
    have hpc := List.pairwise_cons.mp hpw
    have hRc := List.pairwise_cons.mp hR
    rcases List.mem_cons.mp hx with hxa | hxt
    · rcases List.mem_cons.mp hy with hya | hyt
      · rw [hxa, hya] at hxy
        omega
      · exact hxa ▸ hRc.1 y hyt
    · rcases List.mem_cons.mp hy with hya | hyt
      · have := hpc.1 x hxt
        rw [hya] at hxy
        omega
      · exact rel_of_blockOf_lt blockOf t hpc.2 hRc.2 x hxt y hyt hxy

/-- In a strictly block-sorted list every member's block is at most the last
member's block. -/
theorem blockOf_le_getLast (blockOf : α → Nat) :
    ∀ (l : List α), l.Pairwise (fun a b => blockOf a < blockOf b) →
      ∀ z, l.getLast? = some z → ∀ x ∈ l, blockOf x ≤ blockOf z
  | [], _, z, hz, _, hx => by simp at hz
  | a :: t, hpw, z, hz, x, hx => by
    have hpc := List.pairwise_cons.mp hpw
    rcases t with _ | ⟨b, t'⟩
    · simp at hz
      subst hz
      rcases List.mem_cons.mp hx with rfl | hx
      · exact le_refl _
      · simp at hx
    · rw [List.getLast?_cons_cons] at hz
      rcases List.mem_cons.mp hx with rfl | hx
      · have hz2 := blockOf_le_getLast blockOf (b :: t') hpc.2 z hz b
          (List.mem_cons_self _ _)
        have := hpc.1 b (List.mem_cons_self _ _)
        omega
      · exact blockOf_le_getLast blockOf (b :: t') hpc.2 z hz x hx

/-- In a strictly block-sorted list every member's block is at least the head
member's block. -/
theorem head_blockOf_le (blockOf : α → Nat) :
    ∀ (l : List α), l.Pairwise (fun a b => blockOf a < blockOf b) →
      ∀ z, l.head? = some z → ∀ x ∈ l, blockOf z ≤ blockOf x
  | [], _, z, hz, _, _ => by simp at hz
  | a :: t, hpw, z, hz, x, hx => by
    have hpc := List.pairwise_cons.mp hpw
    simp only [List.head?_cons, Option.some.injEq] at hz
    subst hz
    rcases List.mem_cons.mp hx with rfl | hx
    · exact le_refl _
    · exact le_of_lt (hpc.1 x hx)

/-- Resolving an entry's exit root through the table computes the covering
predicate. -/
theorem coveringB_eq (keyOf : α → Nat) (table : List (Nat × Nat)) (dc : Nat)
    (e : α) (i : Nat) (h : table.lookup (keyOf e) = some i) :
    coveringB keyOf table dc e = decide (dc ≤ i) := by
  unfold coveringB
  rw [h]

/-- The binary-search loop returns the first covering entry: given entries
strictly sorted by block with strictly increasing root indices, enough fuel,
and a current best that is covering and minimal among covering entries above
the upper limit, the loop lands exactly on the `find?`-first covering
entry. -/
theorem coveringSearchLoop_ok (blockOf keyOf : α → Nat) (entries : List α)
    (table : List (Nat × Nat)) (dc : Nat) (f : α → Nat)
    (hsort : entries.Pairwise (fun a b => blockOf a < blockOf b))
    (hmono : entries.Pairwise (fun a b => f a < f b))
    (hres : ∀ e ∈ entries, table.lookup (keyOf e) = some (f e))
    (first : α)
    (hfirst : entries.find? (coveringB keyOf table dc) = some first) :
    ∀ (fuel lowerLimit upperLimit : Nat) (best : α),
      upperLimit + 2 - lowerLimit ≤ fuel →
      1 ≤ lowerLimit →
      lowerLimit ≤ upperLimit + 1 →
      (∀ e ∈ entries, blockOf e < lowerLimit → f e < dc) →
      best ∈ entries →
      dc ≤ f best →
      (∀ e ∈ entries, dc ≤ f e → upperLimit < blockOf e → blockOf best ≤ blockOf e) →
      (∃ laste, laste ∈ entries ∧ upperLimit ≤ blockOf laste) →
      coveringSearchLoop blockOf keyOf entries table dc fuel lowerLimit upperLimit best
        = .ok first := by
  obtain ⟨hfmem, hfcovB, hfpredB⟩ :=
    find?_some_sorted blockOf (coveringB keyOf table dc) entries hsort first hfirst
  have hffst : dc ≤ f first := by
    rw [coveringB_eq keyOf table dc first (f first) (hres first hfmem)] at hfcovB
    exact of_decide_eq_true hfcovB
  have hfpred : ∀ y ∈ entries, blockOf y < blockOf first → f y < dc := by
    intro y hy hlt
    have h1 := hfpredB y hy hlt
    rw [coveringB_eq keyOf table dc y (f y) (hres y hy)] at h1
    simpa using h1
  have hmono2 : ∀ x ∈ entries, ∀ y ∈ entries, blockOf x < blockOf y → f x < f y :=
    rel_of_blockOf_lt blockOf entries hsort hmono
  have hinj := eq_of_blockOf_eq blockOf entries hsort
  intro fuel
  induction fuel with
  | zero =>
    intro lower upper best hfuel _ hlow2 _ _ _ _ _
    omega
  | succ n ih =>
    intro lower upper best hfuel h1low hlow2 hinv1 hbmem hbcov hbmin hupper
    simp only [coveringSearchLoop, binarySearchDivider]
    by_cases hle : lower ≤ upper
    · rw [if_pos hle]
      set target := lower + (upper - lower) / 2 with htarget
      have htlb : lower ≤ target := Nat.le_add_right _ _
      have htub : target ≤ upper := by omega
      obtain ⟨laste, hlmem, hlub⟩ := hupper
      have hsome : (entries.find? (fun e => decide (target ≤ blockOf e))).isSome := by
        rw [List.find?_isSome]
        exact ⟨laste, hlmem, by simp; omega⟩
      obtain ⟨targetInfo, hfind⟩ := Option.isSome_iff_exists.mp hsome
      have hff : findFirstAtOrAfter blockOf entries target = .ok targetInfo := by
        unfold findFirstAtOrAfter
        rw [hfind]
      obtain ⟨htmem, htcovB, htpredB⟩ :=
        find?_some_sorted blockOf (fun e => decide (target ≤ blockOf e)) entries hsort
          targetInfo hfind
      have httarget : target ≤ blockOf targetInfo := of_decide_eq_true htcovB
      have htmin : ∀ y ∈ entries, blockOf y < blockOf targetInfo → blockOf y < target := by
        intro y hy h
        have h1 := htpredB y hy h
        simpa using h1
      rw [hff]
      dsimp only
      have hrootIdx : getRootIndexByLER table (keyOf targetInfo) = .ok (f targetInfo) := by
        unfold getRootIndexByLER
        rw [hres targetInfo htmem]
      rw [hrootIdx]
      dsimp only
      by_cases hcase1 : f targetInfo < dc
      · rw [if_pos hcase1]
        apply ih
        · omega
        · omega
        · omega
        · intro e he hb
          rcases Nat.lt_or_ge (blockOf e) (blockOf targetInfo) with h | h
          · exact lt_trans (hmono2 e he targetInfo htmem h) hcase1
          · have heq : blockOf e = blockOf targetInfo := by omega
            rw [hinj e he targetInfo htmem heq]
            exact hcase1
        · exact hbmem
        · exact hbcov
        · exact hbmin
        · exact ⟨laste, hlmem, hlub⟩
      · rw [if_neg hcase1]
        by_cases hcase2 : f targetInfo = dc
        · rw [if_pos hcase2]
          have hteq : targetInfo = first := by
            have hffind :
                entries.find? (coveringB keyOf table dc) = some targetInfo := by
              apply find?_eq_some_of_first blockOf _ entries hsort targetInfo htmem
              · rw [coveringB_eq keyOf table dc targetInfo (f targetInfo)
                  (hres targetInfo htmem)]
                simp [hcase2]
              · intro y hy hlt
                rw [coveringB_eq keyOf table dc y (f y) (hres y hy)]
                have := hmono2 y hy targetInfo htmem hlt
                simp
                omega
            rw [hffind] at hfirst
            exact Option.some_injective _ hfirst
          rw [hteq]
        · rw [if_neg hcase2]
          have hgt : dc < f targetInfo := by omega
          have hu64 : u64sub1 target = target - 1 := by
            unfold u64sub1
            rw [if_neg (by omega)]
          rw [hu64]
          apply ih
          · omega
          · exact h1low
          · omega
          · exact hinv1
          · exact htmem
          · exact le_of_lt hgt
          · intro e he _ hb
            by_contra hcon
            push_neg at hcon
            have := htmin e he hcon
            omega
          · exact ⟨targetInfo, htmem, by omega⟩
    · rw [if_neg hle]
      have hfl : lower ≤ blockOf first := by
        by_contra hcon
        push_neg at hcon
        have := hinv1 first hfmem hcon
        omega
      have hfu : upper < blockOf first := by omega
      have h1 : blockOf best ≤ blockOf first := hbmin first hfmem hffst hfu
      have h2 : ¬ blockOf best < blockOf first := by
        intro hcon
        have := hfpred best hbmem hcon
        omega
      rw [hinj best hbmem first hfmem (by omega)]

/-- Running the full search from the store's head and last entries: when a
covering entry exists the loop returns the first one (and the pre-check on
the last entry passes); when none exists the pre-check fails. -/
theorem coveringSearch_run (blockOf keyOf : α → Nat) (entries : List α)
    (table : List (Nat × Nat)) (dc : Nat) (f : α → Nat)
    (hsort : entries.Pairwise (fun a b => blockOf a < blockOf b))
    (hmono : entries.Pairwise (fun a b => f a < f b))
    (hres : ∀ e ∈ entries, table.lookup (keyOf e) = some (f e))
    (hpos : ∀ e ∈ entries, 1 ≤ blockOf e)
    (firstE lastE : α)
    (hhead : entries.head? = some firstE) (hlast : entries.getLast? = some lastE) :
    (∀ x, entries.find? (coveringB keyOf table dc) = some x →
      ¬ f lastE < dc ∧
      coveringSearchLoop blockOf keyOf entries table dc
        (blockOf lastE + 2 - blockOf firstE) (blockOf firstE) (blockOf lastE) lastE
        = .ok x) ∧
    (entries.find? (coveringB keyOf table dc) = none → f lastE < dc) := by
  have hlmem : lastE ∈ entries := by
    obtain ⟨hne, hx⟩ := List.mem_getLast?_eq_getLast (Option.mem_def.mpr hlast)
    rw [hx]
    exact List.getLast_mem hne
  have hfmem : firstE ∈ entries := by
    have hc := List.eq_cons_of_mem_head? (Option.mem_def.mpr hhead)
    rw [hc]
    exact List.mem_cons_self _ _
  have hleLast := blockOf_le_getLast blockOf entries hsort lastE hlast
  have hleHead := head_blockOf_le blockOf entries hsort firstE hhead
  constructor
  · intro x hx
    obtain ⟨hxmem, hxcovB, _⟩ :=
      find?_some_sorted blockOf (coveringB keyOf table dc) entries hsort x hx
    have hxcov : dc ≤ f x := by
      rw [coveringB_eq keyOf table dc x (f x) (hres x hxmem)] at hxcovB
      exact of_decide_eq_true hxcovB
    have hmono2 : ∀ a ∈ entries, ∀ b ∈ entries, blockOf a < blockOf b → f a < f b :=
      rel_of_blockOf_lt blockOf entries hsort hmono
    have hlastcov : dc ≤ f lastE := by
      rcases Nat.lt_or_ge (blockOf x) (blockOf lastE) with h | h
      · exact le_of_lt (lt_of_le_of_lt hxcov (hmono2 x hxmem lastE hlmem h))
      · have hxeq : x = lastE :=
          eq_of_blockOf_eq blockOf entries hsort x hxmem lastE hlmem
            (Nat.le_antisymm (hleLast x hxmem) h)
        rw [← hxeq]
        exact hxcov
    refine ⟨by omega, ?_⟩
    apply coveringSearchLoop_ok blockOf keyOf entries table dc f hsort hmono hres x hx
    · exact le_refl _
    · exact hpos firstE hfmem
    · have := hleHead lastE hlmem
      omega
    · intro e he hb
      have := hleHead e he
      omega
    · exact hlmem
    · exact hlastcov
    · intro e he _ hb
      exact le_of_lt hb
    · exact ⟨lastE, hlmem, le_refl _⟩
  · intro hnone
    have := List.find?_eq_none.mp hnone lastE hlmem
    rw [coveringB_eq keyOf table dc lastE (f lastE) (hres lastE hlmem)] at this
    simpa using this

end BridgeService

/-! ## Theorems -/

/-- Claim C4: the FEP last-proven-block computation returns the start L2 block
exactly when `fromBlock = 0`, or the last certificate is present with its
`ToBlock` below the start L2 block, or `fromBlock - 1` is below the start L2
block; in every other case it returns `fromBlock - 1`. -/
theorem getLastProvenBlock_spec (startL2Block fromBlock : Nat)
    (lastCert : Option CertificateHeader) :
    (fromBlock = 0 ∨ (∃ c, lastCert = some c ∧ c.toBlock < startL2Block) ∨
        fromBlock - 1 < startL2Block →
      getLastProvenBlock startL2Block fromBlock lastCert = startL2Block) ∧
    (¬(fromBlock = 0 ∨ (∃ c, lastCert = some c ∧ c.toBlock < startL2Block) ∨
        fromBlock - 1 < startL2Block) →
      getLastProvenBlock startL2Block fromBlock lastCert = fromBlock - 1) := by
  constructor
  · rintro (h0 | ⟨c, hc, hlt⟩ | hlt)
    · simp [getLastProvenBlock, h0]
    · subst hc
      by_cases h0 : fromBlock = 0
      · simp [getLastProvenBlock, h0]
      · simp [getLastProvenBlock, h0, lastCertBelowStart, hlt]
    · by_cases h0 : fromBlock = 0
      · simp [getLastProvenBlock, h0]
      · unfold getLastProvenBlock
        rcases lastCert with _ | c
        · simp [lastCertBelowStart, h0, hlt]
        · by_cases hbelow : c.toBlock < startL2Block <;>
            simp [lastCertBelowStart, h0, hlt, hbelow]
  · intro h
    push_neg at h
    obtain ⟨h0, hcert, hlt⟩ := h
    have hb : lastCertBelowStart startL2Block lastCert = false := by
      rcases lastCert with _ | c
      · rfl
      · have hc := hcert c rfl
        simp only [lastCertBelowStart, decide_eq_false_iff_not]
        omega
    simp only [getLastProvenBlock, if_neg h0, hb, Bool.false_eq_true, if_false]
    rw [if_neg (by omega : ¬ fromBlock - 1 < startL2Block)]

/-- Witness for `getLastProvenBlock_spec`: concrete evaluations at
`fromBlock = 0` and at a plain case. -/
theorem getLastProvenBlock_spec_witness :
    getLastProvenBlock 5 0 none = 5 ∧ getLastProvenBlock 3 10 none = 9 := by
  refine ⟨(getLastProvenBlock_spec 5 0 none).1 (Or.inl rfl),
    (getLastProvenBlock_spec 3 10 none).2 ?_⟩
  rintro (h | ⟨c, hc, _⟩ | h)
  · exact absurd h (by decide)
  · exact Option.noConfusion hc
  · exact absurd h (by decide)

/-- Claim C10: `BridgeExit.Hash` normalizes missing fields: the hash with a
nil `Amount` equals the hash with `Amount = 0` (and the call mutates a nil
amount to 0), and the hash with zero-length `Metadata` equals the hash
obtained by substituting keccak256 of the empty byte string for the metadata;
hence bridge exits differing only in those respects hash identically, for
every choice of the external keccak function. -/
theorem bridgeExit_hash_normalizes (keccak : List Nat → Bytes) (b : BridgeExit) :
    (b.amount = none →
      BridgeExit.Hash keccak b = BridgeExit.Hash keccak { b with amount := some 0 } ∧
      (b.hashNormalize).amount = some 0) ∧
    (b.metadata = [] →
      BridgeExit.Hash keccak b =
        BridgeExit.Hash keccak { b with metadata := emptyBytesHash keccak }) := by
  constructor
  · intro hnil
    constructor
    · simp [BridgeExit.Hash, BridgeExit.hashParts, hnil]
    · simp [BridgeExit.hashNormalize, hnil]
  · intro hmeta
    by_cases hlen : (emptyBytesHash keccak).length = 0
    · simp [BridgeExit.Hash, BridgeExit.hashParts, hmeta, hlen]
    · simp [BridgeExit.Hash, BridgeExit.hashParts, hmeta, hlen]

/-- Witness for `bridgeExit_hash_normalizes`: a concrete bridge exit with nil
amount and empty metadata, hashed with a concrete keccak stand-in. -/
theorem bridgeExit_hash_normalizes_witness :
    (BridgeExit.Hash (fun l => l)
        { leafType := 0, tokenInfo := ⟨0, []⟩, destinationNetwork := 0,
          destinationAddress := [], amount := none, metadata := [] } =
      BridgeExit.Hash (fun l => l)
        { leafType := 0, tokenInfo := ⟨0, []⟩, destinationNetwork := 0,
          destinationAddress := [], amount := some 0, metadata := [] } ∧
      (BridgeExit.hashNormalize
        { leafType := 0, tokenInfo := ⟨0, []⟩, destinationNetwork := 0,
          destinationAddress := [], amount := none, metadata := [] }).amount = some 0) ∧
    BridgeExit.Hash (fun l => l)
        { leafType := 0, tokenInfo := ⟨0, []⟩, destinationNetwork := 0,
          destinationAddress := [], amount := none, metadata := [] } =
      BridgeExit.Hash (fun l => l)
        { leafType := 0, tokenInfo := ⟨0, []⟩, destinationNetwork := 0,
          destinationAddress := [], amount := none,
          metadata := emptyBytesHash (fun l => l) } := by
  refine ⟨(bridgeExit_hash_normalizes (fun l => l) _).1 rfl,
    (bridgeExit_hash_normalizes (fun l => l) _).2 rfl⟩

/-- Claim C9: with the processor not halted, `GetRollupExitTreeMerkleProof`
with network id 0 returns the canonical empty proof without consulting the
rollup exit tree (the delegate is arbitrary), and a network id `≥ 1` is mapped
to rollup-exit-tree leaf `networkID - 1`. -/
theorem getRollupExitTreeMerkleProof_network0 (node : Nat → Nat → Nat) (zeroLeaf : Nat)
    (s : L1InfoTreeSync) (networkID root : Nat) (h : s.processor.halted = false) :
    L1InfoTreeSync.GetRollupExitTreeMerkleProof node zeroLeaf s 0 root =
      .ok (L1InfoTreeSync.EmptyProof node zeroLeaf) ∧
    (1 ≤ networkID →
      L1InfoTreeSync.GetRollupExitTreeMerkleProof node zeroLeaf s networkID root =
        s.processor.rollupExitTreeGetProof (networkID - 1) root) := by
  constructor
  · simp [L1InfoTreeSync.GetRollupExitTreeMerkleProof, h]
  · intro hge
    have hne : networkID ≠ 0 := by omega
    simp [L1InfoTreeSync.GetRollupExitTreeMerkleProof, h, hne]

/-- A processor whose every delegate read yields a fixed placeholder; used to
instantiate witnesses. -/
def placeholderProcessor (halted : Bool) : ProcessorModel :=
  { halted := halted
    getL1InfoTreeMerkleProof := fun _ => .error .dbNotFound
    rollupExitTreeGetProof := fun _ _ => .error .dbNotFound
    getLatestInfoUntilBlock := fun _ => .error .dbNotFound
    getInfoByIndex := fun _ => .error .dbNotFound
    l1InfoTreeGetRootByIndex := fun _ => .error .dbNotFound
    rollupExitTreeGetLastRoot := .error .dbNotFound
    l1InfoTreeGetLastRoot := .error .dbNotFound
    getLastProcessedBlock := .error .dbNotFound
    rollupExitTreeGetLeaf := fun _ _ => .error .dbNotFound
    getLastVerifiedBatches := fun _ => .error .dbNotFound
    getFirstVerifiedBatches := fun _ => .error .dbNotFound
    getFirstVerifiedBatchesAfterBlock := fun _ _ => .error .dbNotFound
    getFirstL1InfoWithRollupExitRoot := fun _ => .error .dbNotFound
    getLastInfo := .error .dbNotFound
    getFirstInfo := .error .dbNotFound
    getFirstInfoAfterBlock := fun _ => .error .dbNotFound
    getInfoByGlobalExitRoot := fun _ => .error .dbNotFound
    l1InfoTreeGetProof := fun _ _ => .error .dbNotFound
    getInitL1InfoRootMap := .error .dbNotFound
    getProcessedBlockUntil := fun _ => .error .dbNotFound }

/-- Witness for `getRollupExitTreeMerkleProof_network0`. -/
theorem getRollupExitTreeMerkleProof_network0_witness :
    L1InfoTreeSync.GetRollupExitTreeMerkleProof (fun a b => a + b) 0
        (L1InfoTreeSync.mk (placeholderProcessor false)) 0 0 =
      .ok (L1InfoTreeSync.EmptyProof (fun a b => a + b) 0) ∧
    (1 ≤ 3 →
      L1InfoTreeSync.GetRollupExitTreeMerkleProof (fun a b => a + b) 0
          (L1InfoTreeSync.mk (placeholderProcessor false)) 3 0 =
        (placeholderProcessor false).rollupExitTreeGetProof 2 0) :=
  getRollupExitTreeMerkleProof_network0 (fun a b => a + b) 0
    (L1InfoTreeSync.mk (placeholderProcessor false)) 3 0 rfl

/-- `errors.Is` looks through `fmt.Errorf` wrapping. -/
theorem errorsIs_wrap (s : String) (e target : GoError) (h : errorsIs e target = true) :
    errorsIs (.wrap s e) target = true := by
  simp [errorsIs, h]

/-- The sentinel matches itself. -/
theorem errorsIs_noProof_self : errorsIs errNoProofBuiltYet errNoProofBuiltYet = true := by
  simp [errorsIs, errNoProofBuiltYet]

/-- Under a prover that answers `NoProofBuiltYet` to every request, a
`GenerateAggchainProof` call that reached a prover client produced a wrapped
`errNoProofBuiltYet` error. -/
theorem generateAggchainProof_noProofBuiltYet (env : FlowEnv)
    (hfep : ∀ r, env.generateAggchainProofClient r = .error errNoProofBuiltYet)
    (hopt : ∀ r sig, env.generateOptimisticAggchainProofClient r sig = .error errNoProofBuiltYet)
    (lastProvenBlock toBlock : Nat) (bp : CertificateBuildParams)
    (hcalled : (GenerateAggchainProof env lastProvenBlock toBlock bp).2 = true) :
    ∃ e, (GenerateAggchainProof env lastProvenBlock toBlock bp).1 = .error e ∧
      errorsIs e errNoProofBuiltYet = true := by
  unfold GenerateAggchainProof at hcalled ⊢
  rcases hdata : env.finalizedL1InfoTreeData with e | ⟨prf, leaf, root⟩ <;>
    rw [hdata] at hcalled
  · simp at hcalled
  dsimp only at hcalled ⊢
  rcases hchk : env.checkClaims root bp.claims with e | u <;> rw [hchk] at hcalled
  · simp at hcalled
  dsimp only at hcalled ⊢
  rcases hgers : env.getInjectedGERsProofs root (lastProvenBlock + 1) toBlock with e | gers <;>
    rw [hgers] at hcalled
  · simp at hcalled
  dsimp only at hcalled ⊢
  rcases hibe : getImportedBridgeExitsForProver env bp.claims with e | ibes <;>
    rw [hibe] at hcalled
  · simp at hcalled
  dsimp only at hcalled ⊢
  by_cases hmode : bp.certificateType = CertificateType.optimistic
  · have hd : decide (bp.certificateType = CertificateType.optimistic) = true :=
      decide_eq_true hmode
    simp only [hd, Bool.not_true, Bool.false_eq_true, if_false] at hcalled ⊢
    unfold generateOptimisticAggchainProof at hcalled ⊢
    rcases hler : env.getNewLocalExitRoot bp with e | newLER <;> rw [hler] at hcalled
    · simp at hcalled
    dsimp only at hcalled ⊢
    rcases hsig : env.optimisticSign _ newLER bp.claims with e | ⟨sign, extraData⟩ <;>
      rw [hsig] at hcalled
    · simp at hcalled
    dsimp only at hcalled ⊢
    rw [hopt]
    exact ⟨_, rfl, errorsIs_wrap _ _ _ (errorsIs_wrap _ _ _ errorsIs_noProof_self)⟩
  · have hd : decide (bp.certificateType = CertificateType.optimistic) = false :=
      decide_eq_false hmode
    simp only [hd, Bool.not_false, if_true] at hcalled ⊢
    rw [hfep]
    exact ⟨_, rfl, errorsIs_wrap _ _ _ errorsIs_noProof_self⟩

/-- Under a prover that answers `NoProofBuiltYet`, a
`verifyBuildParamsAndGenerateProof` call that reached a prover client returns
nil build params and nil error. -/
theorem verifyGen_noProofBuiltYet (env : FlowEnv)
    (hfep : ∀ r, env.generateAggchainProofClient r = .error errNoProofBuiltYet)
    (hopt : ∀ r sig, env.generateOptimisticAggchainProofClient r sig = .error errNoProofBuiltYet)
    (bp : CertificateBuildParams)
    (hcalled : (verifyBuildParamsAndGenerateProof env bp).proverCalled = true) :
    (verifyBuildParamsAndGenerateProof env bp).result = .ok none := by
  unfold verifyBuildParamsAndGenerateProof at hcalled ⊢
  rcases hver : env.verifyBuildParams bp with e | u <;> rw [hver] at hcalled
  · simp at hcalled
  dsimp only at hcalled ⊢
  rcases hgen : GenerateAggchainProof env
      (getLastProvenBlock env.startL2Block bp.fromBlock bp.lastSentCertificate)
      bp.toBlock bp with ⟨res, called⟩
  rw [hgen] at hcalled
  have h2 : called = true := by
    rcases res with e | ⟨proof, root, bp2⟩
    · dsimp only at hcalled
      by_cases hnb : errorsIs e errNoProofBuiltYet = true
      · simpa [hnb] using hcalled
      · simpa [hnb] using hcalled
    · dsimp only at hcalled
      rcases hadj : adjustBlockRange
          { bp2 with
            l1InfoTreeRootFromWhichToProve := root.hash
            aggchainProof := some proof
            l1InfoTreeLeafCount := root.index + 1 }
          bp2.toBlock proof.endBlock with e | adj <;> rw [hadj] at hcalled <;>
        simpa using hcalled
  obtain ⟨e2, he2, hIs⟩ := generateAggchainProof_noProofBuiltYet env hfep hopt
    (getLastProvenBlock env.startL2Block bp.fromBlock bp.lastSentCertificate) bp.toBlock bp
    (by rw [hgen]; exact h2)
  rw [hgen] at he2
  dsimp only at he2
  subst he2
  simp [hIs]

/-- Under a prover that answers `NoProofBuiltYet`, the InError-retry branch
emits nothing whenever it reached a prover client. -/
theorem retry_noProofBuiltYet (env : FlowEnv)
    (hfep : ∀ r, env.generateAggchainProofClient r = .error errNoProofBuiltYet)
    (hopt : ∀ r sig, env.generateOptimisticAggchainProofClient r sig = .error errNoProofBuiltYet)
    (cert : CertificateHeader) (proof : Option AggchainProof) (typeCert : CertificateType)
    (hcalled : (getCertificateBuildParamsRetry env cert proof typeCert).proverCalled = true) :
    (getCertificateBuildParamsRetry env cert proof typeCert).result = .ok none := by
  unfold getCertificateBuildParamsRetry at hcalled ⊢
  dsimp only at hcalled ⊢
  rcases hbc : env.getBridgesAndClaims cert.fromBlock cert.toBlock with e | ⟨bridges, claims⟩ <;>
    rw [hbc] at hcalled
  · simp at hcalled
  dsimp only at hcalled ⊢
  rcases hadapt : env.adaptCertificate
      ⟨cert.fromBlock, cert.toBlock, cert.retryCount + 1, bridges, claims, some cert,
        cert.createdAt, typeCert, none, 0, 0, none⟩ with e | bp <;> rw [hadapt] at hcalled
  · simp at hcalled
  dsimp only at hcalled ⊢
  rcases proof with _ | p
  · exact verifyGen_noProofBuiltYet env hfep hopt bp hcalled
  · simp at hcalled

/-- Under a prover that answers `NoProofBuiltYet`, the fresh-certificate
branch emits nothing whenever it reached a prover client. -/
theorem fresh_noProofBuiltYet (env : FlowEnv)
    (hfep : ∀ r, env.generateAggchainProofClient r = .error errNoProofBuiltYet)
    (hopt : ∀ r sig, env.generateOptimisticAggchainProofClient r sig = .error errNoProofBuiltYet)
    (lastSentCert : Option CertificateHeader) (typeCert : CertificateType)
    (hcalled : (getCertificateBuildParamsFresh env lastSentCert typeCert).proverCalled = true) :
    (getCertificateBuildParamsFresh env lastSentCert typeCert).result = .ok none := by
  unfold getCertificateBuildParamsFresh at hcalled ⊢
  rcases hint : env.getBuildParamsInternal typeCert with e | bp <;> rw [hint] at hcalled
  · by_cases hnb : errorsIs e errNoNewBlocks = true <;> simp [hnb] at hcalled
  dsimp only at hcalled ⊢
  rcases hadapt : env.adaptCertificate bp with e | bp2 <;> rw [hadapt] at hcalled
  · simp at hcalled
  dsimp only at hcalled ⊢
  exact verifyGen_noProofBuiltYet env hfep hopt _ hcalled

/-- Claim C2: whenever the external prover answers the aggchain-proof request
with the `NoProofBuiltYet` condition (gRPC code Unavailable with the
'has not built any proof yet' message), a tick of the `AggchainProverFlow`
that reached the prover emits nothing: `GetCertificateBuildParams` returns nil
build params and nil error, and no certificate header is written to storage
for the tick. -/
theorem noProofBuiltYet_emitsNothing (env : FlowEnv)
    (hfep : ∀ r, env.generateAggchainProofClient r = .error errNoProofBuiltYet)
    (hopt : ∀ r sig, env.generateOptimisticAggchainProofClient r sig = .error errNoProofBuiltYet)
    (hcalled : (GetCertificateBuildParams env).proverCalled = true) :
    (GetCertificateBuildParams env).result = .ok none ∧ tickWritesHeader env = false := by
  have hres : (GetCertificateBuildParams env).result = .ok none := by
    unfold GetCertificateBuildParams at hcalled ⊢
    rcases hlast : env.lastSentCertWithProof with e | ⟨lastSentCert, proof⟩ <;>
      rw [hlast] at hcalled
    · simp at hcalled
    dsimp only at hcalled ⊢
    rcases htype : getCertificateTypeToGenerate env with e | typeCert <;>
      rw [htype] at hcalled
    · simp at hcalled
    dsimp only at hcalled ⊢
    rcases lastSentCert with _ | cert
    · dsimp only at hcalled ⊢
      exact fresh_noProofBuiltYet env hfep hopt none typeCert hcalled
    · dsimp only at hcalled ⊢
      by_cases hcond : (cert.status.IsInError && decide (cert.certType = typeCert)) = true
      · rw [if_pos hcond] at hcalled ⊢
        exact retry_noProofBuiltYet env hfep hopt cert proof typeCert hcalled
      · rw [if_neg hcond] at hcalled ⊢
        exact fresh_noProofBuiltYet env hfep hopt (some cert) typeCert hcalled
  refine ⟨hres, ?_⟩
  unfold tickWritesHeader
  rw [hres]

/-- A concrete InError FEP certificate header over block range [1, 10]. -/
def sampleInErrorCert : CertificateHeader :=
  { fromBlock := 1, toBlock := 10, status := .inError, certType := .fep,
    createdAt := 7, retryCount := 0, finalizedL1InfoTreeRoot := some 3,
    l1InfoTreeLeafCount := 4 }

/-- A concrete environment: the last sent certificate is `sampleInErrorCert`
with no cached proof, the querier returns bridges at blocks 9 and 10 and one
claim at block 2, and the prover answers with `endBlock = 8`. -/
def sampleRetryEnv : FlowEnv :=
  { lastSentCertWithProof := .ok (some sampleInErrorCert, none)
    isOptimisticModeOn := .ok false
    getBridgesAndClaims := fun _ _ => .ok ([⟨9, 0⟩, ⟨10, 1⟩], [⟨2, 0⟩])
    adaptCertificate := maxL2BlockAdaptCertificate 0
    getBuildParamsInternal := fun _ => .error (.msg "unused")
    verifyBuildParams := fun _ => .ok ()
    startL2Block := 0
    finalizedL1InfoTreeData := .ok ([], ⟨1, 0, 0, 0, 0⟩, ⟨77, 6, 1, 0⟩)
    checkClaims := fun _ _ => .ok ()
    getInjectedGERsProofs := fun _ _ _ => .ok []
    convertClaim := fun _ => .ok 0
    generateAggchainProofClient := fun _ => .ok ⟨8, [1], 2⟩
    generateOptimisticAggchainProofClient := fun _ _ => .error (.msg "unused")
    getNewLocalExitRoot := fun _ => .error (.msg "unused")
    optimisticSign := fun _ _ _ => .error (.msg "unused") }

/-- `sampleRetryEnv` with a prover stuck in the `NoProofBuiltYet` state. -/
def sampleNoProofEnv : FlowEnv :=
  { sampleRetryEnv with
    generateAggchainProofClient := fun _ => .error errNoProofBuiltYet
    generateOptimisticAggchainProofClient := fun _ _ => .error errNoProofBuiltYet }

/-- Witness for `noProofBuiltYet_emitsNothing`: the concrete retry tick of
`sampleNoProofEnv` reaches the prover and emits nothing. -/
theorem noProofBuiltYet_emitsNothing_witness :
    (GetCertificateBuildParams sampleNoProofEnv).result = .ok none ∧
    tickWritesHeader sampleNoProofEnv = false :=
  noProofBuiltYet_emitsNothing sampleNoProofEnv (fun _ => rfl) (fun _ _ => rfl) (by decide)

/-- Claim C3: whenever the prover returns an `endBlock` smaller than the
requested end block, the certificate build parameters produced by
`verifyBuildParamsAndGenerateProof` have `toBlock` equal to the prover's
`endBlock`, every bridge and claim with `blockNum > endBlock` is excluded,
and bridges and claims inside `[fromBlock, endBlock]` are retained. -/
theorem proverShrinksRange_dropsTail (env : FlowEnv) (bp : CertificateBuildParams)
    (prf : TreeProof) (leaf : L1InfoTreeLeaf) (root : TreeRoot)
    (gers : List Nat) (ibes : List ImportedBridgeExitWithBlockNumber) (pr : AggchainProof)
    (hver : env.verifyBuildParams bp = .ok ())
    (hdata : env.finalizedL1InfoTreeData = .ok (prf, leaf, root))
    (hchk : env.checkClaims root bp.claims = .ok ())
    (hgers : env.getInjectedGERsProofs root
      (getLastProvenBlock env.startL2Block bp.fromBlock bp.lastSentCertificate + 1)
      bp.toBlock = .ok gers)
    (hibe : getImportedBridgeExitsForProver env bp.claims = .ok ibes)
    (hmode : bp.certificateType ≠ CertificateType.optimistic)
    (hclient : ∀ r, env.generateAggchainProofClient r = .ok pr)
    (hsmaller : pr.endBlock < bp.toBlock)
    (hfromB : ∀ b ∈ bp.bridges, bp.fromBlock ≤ b.blockNum)
    (hfromC : ∀ c ∈ bp.claims, bp.fromBlock ≤ c.blockNum) :
    ∃ res, (verifyBuildParamsAndGenerateProof env bp).result = .ok (some res) ∧
      res.toBlock = pr.endBlock ∧
      (∀ b : Bridge, b ∈ res.bridges ↔ b ∈ bp.bridges ∧ b.blockNum ≤ pr.endBlock) ∧
      (∀ c : Claim, c ∈ res.claims ↔ c ∈ bp.claims ∧ c.blockNum ≤ pr.endBlock) := by
  have hne : bp.toBlock ≠ pr.endBlock := by omega
  unfold verifyBuildParamsAndGenerateProof
  rw [hver]
  dsimp only
  unfold GenerateAggchainProof
  rw [hdata]
  dsimp only
  rw [hchk]
  dsimp only
  rw [hgers]
  dsimp only
  rw [hibe]
  dsimp only
  have hd : decide (bp.certificateType = CertificateType.optimistic) = false :=
    decide_eq_false hmode
  simp only [hd, Bool.not_false, if_true]
  rw [hclient]
  dsimp only
  unfold adjustBlockRange
  dsimp only
  rw [if_pos hne]
  unfold CertificateBuildParams.range
  dsimp only
  refine ⟨_, rfl, rfl, ?_, ?_⟩
  · intro b
    simp only [List.mem_filter, Bool.and_eq_true, decide_eq_true_eq]
    constructor
    · rintro ⟨hb, _, h2⟩
      exact ⟨hb, h2⟩
    · rintro ⟨hb, h2⟩
      exact ⟨hb, hfromB b hb, h2⟩
  · intro c
    simp only [List.mem_filter, Bool.and_eq_true, decide_eq_true_eq]
    constructor
    · rintro ⟨hc, _, h2⟩
      exact ⟨hc, h2⟩
    · rintro ⟨hc, h2⟩
      exact ⟨hc, hfromC c hc, h2⟩

/-- Witness for `proverShrinksRange_dropsTail`: the concrete retry
environment requests `[1, 10]` and the prover answers `endBlock = 8`. -/
theorem proverShrinksRange_dropsTail_witness :
    ∃ res, (verifyBuildParamsAndGenerateProof sampleRetryEnv
        { fromBlock := 1, toBlock := 10, retryCount := 1, bridges := [⟨9, 0⟩, ⟨10, 1⟩],
          claims := [⟨2, 0⟩], lastSentCertificate := some sampleInErrorCert, createdAt := 7,
          certificateType := .fep, aggchainProof := none,
          l1InfoTreeRootFromWhichToProve := 0, l1InfoTreeLeafCount := 0,
          extraData := none }).result = .ok (some res) ∧
      res.toBlock = (8 : Nat) ∧
      (∀ b : Bridge, b ∈ res.bridges ↔ b ∈ [(⟨9, 0⟩ : Bridge), ⟨10, 1⟩] ∧ b.blockNum ≤ 8) ∧
      (∀ c : Claim, c ∈ res.claims ↔ c ∈ [(⟨2, 0⟩ : Claim)] ∧ c.blockNum ≤ 8) :=
  proverShrinksRange_dropsTail sampleRetryEnv _ [] ⟨1, 0, 0, 0, 0⟩ ⟨77, 6, 1, 0⟩ [] [⟨0, 2⟩]
    ⟨8, [1], 2⟩ rfl rfl rfl rfl rfl (by decide) (fun _ => rfl) (by decide)
    (by decide) (by decide)

/-- The record built by the InError-retry branch before adaptation. -/
@[reducible] def retryBuildParams (cert : CertificateHeader) (bridges : List Bridge)
    (claims : List Claim) (typeCert : CertificateType) : CertificateBuildParams :=
  { fromBlock := cert.fromBlock, toBlock := cert.toBlock,
    retryCount := cert.retryCount + 1, bridges := bridges, claims := claims,
    lastSentCertificate := some cert, createdAt := cert.createdAt,
    certificateType := typeCert, aggchainProof := none,
    l1InfoTreeRootFromWhichToProve := 0, l1InfoTreeLeafCount := 0, extraData := none }

/-- The spec-modelled max-L2-block limiter leaves a retry of an InError
certificate unchanged, for every configured bound. -/
theorem maxL2BlockAdapt_retry_id (m : Nat) (c : CertificateBuildParams)
    (h : c.isRetryOfInError = true) :
    maxL2BlockAdaptCertificate m c = .ok c := by
  unfold maxL2BlockAdaptCertificate
  by_cases hm : m = 0
  · rw [if_pos hm]
  · rw [if_neg hm, if_pos h]

/-- With an InError last sent certificate of the current certificate type,
`GetCertificateBuildParams` dispatches to the retry branch. -/
theorem getCertificateBuildParams_retry_dispatch (env : FlowEnv)
    (cert : CertificateHeader) (proofOpt : Option AggchainProof) (mode : Bool)
    (henv : env.lastSentCertWithProof = .ok (some cert, proofOpt))
    (hinerr : cert.status = .inError)
    (hmode : env.isOptimisticModeOn = .ok mode)
    (htype : cert.certType = (if mode then CertificateType.optimistic else CertificateType.fep)) :
    GetCertificateBuildParams env =
      getCertificateBuildParamsRetry env cert proofOpt cert.certType := by
  have htg : getCertificateTypeToGenerate env =
      .ok (if mode then CertificateType.optimistic else CertificateType.fep) := by
    unfold getCertificateTypeToGenerate
    rw [hmode]
    cases mode <;> rfl
  unfold GetCertificateBuildParams
  rw [henv]
  dsimp only
  rw [htg]
  dsimp only
  rw [if_pos (by simp [CertificateStatus.IsInError, hinerr, ← htype])]
  rw [← htype]

/-- The successful non-optimistic path of `verifyBuildParamsAndGenerateProof`:
the prover is reached and the adjusted parameters are returned. -/
theorem verifyGen_success (env : FlowEnv) (bp : CertificateBuildParams)
    (prf : TreeProof) (leaf : L1InfoTreeLeaf) (root : TreeRoot)
    (gers : List Nat) (ibes : List ImportedBridgeExitWithBlockNumber) (pr : AggchainProof)
    (hver : env.verifyBuildParams bp = .ok ())
    (hdata : env.finalizedL1InfoTreeData = .ok (prf, leaf, root))
    (hchk : env.checkClaims root bp.claims = .ok ())
    (hgers : env.getInjectedGERsProofs root
      (getLastProvenBlock env.startL2Block bp.fromBlock bp.lastSentCertificate + 1)
      bp.toBlock = .ok gers)
    (hibe : getImportedBridgeExitsForProver env bp.claims = .ok ibes)
    (hmode : bp.certificateType ≠ CertificateType.optimistic)
    (hclient : ∀ r, env.generateAggchainProofClient r = .ok pr) :
    verifyBuildParamsAndGenerateProof env bp =
      { result :=
          match adjustBlockRange
              { bp with
                l1InfoTreeRootFromWhichToProve := root.hash
                aggchainProof := some pr
                l1InfoTreeLeafCount := root.index + 1 }
              bp.toBlock pr.endBlock with
          | .error e => .error e
          | .ok adjusted => .ok (some adjusted)
        proverCalled := true } := by
  unfold verifyBuildParamsAndGenerateProof
  rw [hver]
  dsimp only
  unfold GenerateAggchainProof
  rw [hdata]
  dsimp only
  rw [hchk]
  dsimp only
  rw [hgers]
  dsimp only
  rw [hibe]
  dsimp only
  have hd : decide (bp.certificateType = CertificateType.optimistic) = false :=
    decide_eq_false hmode
  simp only [hd, Bool.not_false, if_true]
  rw [hclient]
  dsimp only
  rcases adjustBlockRange
      { bp with
        l1InfoTreeRootFromWhichToProve := root.hash
        aggchainProof := some pr
        l1InfoTreeLeafCount := root.index + 1 }
      bp.toBlock pr.endBlock with e | adjusted <;> rfl

/-- Claim C1 counterexample: in the tick of `sampleRetryEnv` the last sent
certificate is InError with matching `CertType` and range `[1, 10]`, no proof
is cached, and the prover answers `endBlock = 8`; the returned build
parameters have `ToBlock = 8`, not the InError certificate's `ToBlock = 10`,
so the returned range is not always identical to the InError certificate's
range. -/
theorem inErrorRetry_identicalRange_counterexample :
    sampleInErrorCert.status.IsInError = true ∧
    sampleInErrorCert.certType = CertificateType.fep ∧
    sampleRetryEnv.lastSentCertWithProof = .ok (some sampleInErrorCert, none) ∧
    sampleRetryEnv.isOptimisticModeOn = .ok false ∧
    sampleInErrorCert.toBlock = 10 ∧
    ∃ bp, (GetCertificateBuildParams sampleRetryEnv).result = .ok (some bp) ∧
      bp.toBlock = 8 :=
  ⟨rfl, rfl, rfl, rfl, rfl, _, rfl, rfl⟩

/-- Claim C1 (amended): in every tick whose last sent certificate is InError
with `CertType` matching the current type, the retry parameters are built over
the certificate's exact range with `CreatedAt` unchanged and `RetryCount`
incremented by exactly 1.  When a cached `AggchainProof` is stored it is
reused and the prover is not called, and the returned parameters carry the
certificate's exact range.  When no proof is cached the prover is called
again (over the certificate's range), and the returned parameters carry the
certificate's exact range whenever the prover confirms the requested end
block (a smaller answer shrinks `ToBlock`). -/
theorem inErrorRetry_resend (env : FlowEnv) (cert : CertificateHeader) (m : Nat)
    (proofOpt : Option AggchainProof) (mode : Bool)
    (bridges : List Bridge) (claims : List Claim)
    (henv : env.lastSentCertWithProof = .ok (some cert, proofOpt))
    (hinerr : cert.status = .inError)
    (hmode : env.isOptimisticModeOn = .ok mode)
    (htype : cert.certType = (if mode then CertificateType.optimistic else CertificateType.fep))
    (hadapt : env.adaptCertificate = maxL2BlockAdaptCertificate m)
    (hbc : env.getBridgesAndClaims cert.fromBlock cert.toBlock = .ok (bridges, claims)) :
    (∀ p, proofOpt = some p →
      (GetCertificateBuildParams env).proverCalled = false ∧
      (GetCertificateBuildParams env).result = .ok (some
        { retryBuildParams cert bridges claims cert.certType with
          aggchainProof := some p
          l1InfoTreeRootFromWhichToProve := cert.finalizedL1InfoTreeRoot.getD 0
          l1InfoTreeLeafCount := cert.l1InfoTreeLeafCount })) ∧
    (proofOpt = none →
      ∀ (prf : TreeProof) (leaf : L1InfoTreeLeaf) (root : TreeRoot) (gers : List Nat)
        (ibes : List ImportedBridgeExitWithBlockNumber) (pr : AggchainProof),
      (∀ bp, env.verifyBuildParams bp = .ok ()) →
      env.finalizedL1InfoTreeData = .ok (prf, leaf, root) →
      (∀ r cl, env.checkClaims r cl = .ok ()) →
      (∀ r a b, env.getInjectedGERsProofs r a b = .ok gers) →
      getImportedBridgeExitsForProver env claims = .ok ibes →
      mode = false →
      (∀ r, env.generateAggchainProofClient r = .ok pr) →
      (GetCertificateBuildParams env).proverCalled = true ∧
      (pr.endBlock = cert.toBlock →
        (GetCertificateBuildParams env).result = .ok (some
          { retryBuildParams cert bridges claims cert.certType with
            aggchainProof := some pr
            l1InfoTreeRootFromWhichToProve := root.hash
            l1InfoTreeLeafCount := root.index + 1 }))) := by
  have hdispatch := getCertificateBuildParams_retry_dispatch env cert proofOpt mode
    henv hinerr hmode htype
  have hretryrec : (retryBuildParams cert bridges claims cert.certType).isRetryOfInError
      = true := by
    simp [retryBuildParams, CertificateBuildParams.isRetryOfInError,
      CertificateStatus.IsInError, hinerr]
  have hadapt2 : env.adaptCertificate (retryBuildParams cert bridges claims cert.certType) =
      .ok (retryBuildParams cert bridges claims cert.certType) := by
    rw [hadapt]
    exact maxL2BlockAdapt_retry_id m _ hretryrec
  constructor
  · intro p hp
    subst hp
    rw [hdispatch]
    unfold getCertificateBuildParamsRetry
    dsimp only
    rw [hbc]
    dsimp only
    rw [show env.adaptCertificate _ = _ from hadapt2]
    dsimp only
    exact ⟨rfl, rfl⟩
  · intro hp prf leaf root gers ibes pr hver hdata hchk hgers hibe hmodeF hclient
    subst hp
    rw [hdispatch]
    unfold getCertificateBuildParamsRetry
    dsimp only
    rw [hbc]
    dsimp only
    rw [show env.adaptCertificate _ = _ from hadapt2]
    dsimp only
    have hnotOpt : (retryBuildParams cert bridges claims cert.certType).certificateType ≠
        CertificateType.optimistic := by
      subst hmodeF
      simp only [Bool.false_eq_true, if_false] at htype
      simp [retryBuildParams, htype]
    have hsucc := verifyGen_success env (retryBuildParams cert bridges claims cert.certType)
      prf leaf root gers ibes pr (hver _) hdata (hchk _ _) (hgers _ _ _) hibe hnotOpt hclient
    rw [hsucc]
    refine ⟨rfl, ?_⟩
    intro hend
    have hne : ¬ ((retryBuildParams cert bridges claims cert.certType).toBlock ≠ pr.endBlock) := by
      simp [retryBuildParams, hend]
    unfold adjustBlockRange
    rw [if_neg hne]

/-- `sampleRetryEnv` with a prover that confirms the requested end block. -/
def sampleRetryEnvOk : FlowEnv :=
  { sampleRetryEnv with generateAggchainProofClient := fun _ => .ok ⟨10, [1], 2⟩ }

/-- Witness for `inErrorRetry_resend`: the concrete no-cached-proof retry tick
of `sampleRetryEnvOk` calls the prover and re-sends range [1, 10] with
`retryCount = 1` and `createdAt = 7`. -/
theorem inErrorRetry_resend_witness :
    (GetCertificateBuildParams sampleRetryEnvOk).proverCalled = true ∧
    (GetCertificateBuildParams sampleRetryEnvOk).result = .ok (some
      { retryBuildParams sampleInErrorCert [⟨9, 0⟩, ⟨10, 1⟩] [⟨2, 0⟩]
          sampleInErrorCert.certType with
        aggchainProof := some ⟨10, [1], 2⟩
        l1InfoTreeRootFromWhichToProve := 77
        l1InfoTreeLeafCount := 7 }) := by
  have h := (inErrorRetry_resend sampleRetryEnvOk sampleInErrorCert 0 none false
      [⟨9, 0⟩, ⟨10, 1⟩] [⟨2, 0⟩] rfl rfl rfl rfl rfl rfl).2 rfl
      [] ⟨1, 0, 0, 0, 0⟩ ⟨77, 6, 1, 0⟩ [] [⟨0, 2⟩] ⟨10, [1], 2⟩
      (fun _ => rfl) rfl (fun _ _ => rfl) (fun _ _ _ => rfl) rfl rfl (fun _ => rfl)
  exact ⟨h.1, h.2 rfl⟩

/-- Claim C7: once the processor's sticky halted flag is set, every public
read of `L1InfoTreeSync` returns `ErrInconsistentState` instead of a
result. -/
theorem l1InfoTreeSync_halted_all_reads (s : L1InfoTreeSync)
    (h : s.processor.halted = true)
    (node : Nat → Nat → Nat) (zeroLeaf : Nat)
    (index blockNum networkID root rollupID ger rer : Nat) :
    s.GetL1InfoTreeMerkleProof index = .error .inconsistentState ∧
    L1InfoTreeSync.GetRollupExitTreeMerkleProof node zeroLeaf s networkID root =
      .error .inconsistentState ∧
    s.GetLatestInfoUntilBlock blockNum = .error .inconsistentState ∧
    s.GetInfoByIndex index = .error .inconsistentState ∧
    s.GetL1InfoTreeRootByIndex index = .error .inconsistentState ∧
    s.GetLastRollupExitRoot = .error .inconsistentState ∧
    s.GetLastL1InfoTreeRoot = .error .inconsistentState ∧
    s.GetLastProcessedBlock = .error .inconsistentState ∧
    s.GetLocalExitRoot networkID rer = .error .inconsistentState ∧
    s.GetLastVerifiedBatches rollupID = .error .inconsistentState ∧
    s.GetFirstVerifiedBatches rollupID = .error .inconsistentState ∧
    s.GetFirstVerifiedBatchesAfterBlock rollupID blockNum = .error .inconsistentState ∧
    s.GetFirstL1InfoWithRollupExitRoot rer = .error .inconsistentState ∧
    s.GetLastInfo = .error .inconsistentState ∧
    s.GetFirstInfo = .error .inconsistentState ∧
    s.GetFirstInfoAfterBlock blockNum = .error .inconsistentState ∧
    s.GetInfoByGlobalExitRoot ger = .error .inconsistentState ∧
    s.GetL1InfoTreeMerkleProofFromIndexToRoot index root = .error .inconsistentState ∧
    s.GetInitL1InfoRootMap = .error .inconsistentState ∧
    s.GetProcessedBlockUntil blockNum = .error .inconsistentState := by
  refine ⟨?_, ?_, ?_, ?_, ?_, ?_, ?_, ?_, ?_, ?_, ?_, ?_, ?_, ?_, ?_, ?_, ?_, ?_, ?_, ?_⟩ <;>
    simp [L1InfoTreeSync.GetL1InfoTreeMerkleProof,
      L1InfoTreeSync.GetRollupExitTreeMerkleProof,
      L1InfoTreeSync.GetLatestInfoUntilBlock, L1InfoTreeSync.GetInfoByIndex,
      L1InfoTreeSync.GetL1InfoTreeRootByIndex, L1InfoTreeSync.GetLastRollupExitRoot,
      L1InfoTreeSync.GetLastL1InfoTreeRoot, L1InfoTreeSync.GetLastProcessedBlock,
      L1InfoTreeSync.GetLocalExitRoot, L1InfoTreeSync.GetLastVerifiedBatches,
      L1InfoTreeSync.GetFirstVerifiedBatches,
      L1InfoTreeSync.GetFirstVerifiedBatchesAfterBlock,
      L1InfoTreeSync.GetFirstL1InfoWithRollupExitRoot, L1InfoTreeSync.GetLastInfo,
      L1InfoTreeSync.GetFirstInfo, L1InfoTreeSync.GetFirstInfoAfterBlock,
      L1InfoTreeSync.GetInfoByGlobalExitRoot,
      L1InfoTreeSync.GetL1InfoTreeMerkleProofFromIndexToRoot,
      L1InfoTreeSync.GetInitL1InfoRootMap, L1InfoTreeSync.GetProcessedBlockUntil, h]

/-- Witness for `l1InfoTreeSync_halted_all_reads`: a concrete halted store. -/
theorem l1InfoTreeSync_halted_all_reads_witness :
    (L1InfoTreeSync.mk (placeholderProcessor true)).GetL1InfoTreeMerkleProof 0 =
        Except.error SyncError.inconsistentState ∧
    L1InfoTreeSync.GetRollupExitTreeMerkleProof (fun a b => a + b) 0
        (L1InfoTreeSync.mk (placeholderProcessor true)) 0 0 = .error .inconsistentState ∧
    (L1InfoTreeSync.mk (placeholderProcessor true)).GetLatestInfoUntilBlock 0 =
        .error .inconsistentState ∧
    (L1InfoTreeSync.mk (placeholderProcessor true)).GetInfoByIndex 0 =
        .error .inconsistentState ∧
    (L1InfoTreeSync.mk (placeholderProcessor true)).GetL1InfoTreeRootByIndex 0 =
        .error .inconsistentState ∧
    (L1InfoTreeSync.mk (placeholderProcessor true)).GetLastRollupExitRoot =
        .error .inconsistentState ∧
    (L1InfoTreeSync.mk (placeholderProcessor true)).GetLastL1InfoTreeRoot =
        .error .inconsistentState ∧
    (L1InfoTreeSync.mk (placeholderProcessor true)).GetLastProcessedBlock =
        .error .inconsistentState ∧
    (L1InfoTreeSync.mk (placeholderProcessor true)).GetLocalExitRoot 0 0 =
        .error .inconsistentState ∧
    (L1InfoTreeSync.mk (placeholderProcessor true)).GetLastVerifiedBatches 0 =
        .error .inconsistentState ∧
    (L1InfoTreeSync.mk (placeholderProcessor true)).GetFirstVerifiedBatches 0 =
        .error .inconsistentState ∧
    (L1InfoTreeSync.mk (placeholderProcessor true)).GetFirstVerifiedBatchesAfterBlock 0 0 =
        .error .inconsistentState ∧
    (L1InfoTreeSync.mk (placeholderProcessor true)).GetFirstL1InfoWithRollupExitRoot 0 =
        .error .inconsistentState ∧
    (L1InfoTreeSync.mk (placeholderProcessor true)).GetLastInfo =
        .error .inconsistentState ∧
    (L1InfoTreeSync.mk (placeholderProcessor true)).GetFirstInfo =
        .error .inconsistentState ∧
    (L1InfoTreeSync.mk (placeholderProcessor true)).GetFirstInfoAfterBlock 0 =
        .error .inconsistentState ∧
    (L1InfoTreeSync.mk (placeholderProcessor true)).GetInfoByGlobalExitRoot 0 =
        .error .inconsistentState ∧
    (L1InfoTreeSync.mk (placeholderProcessor true)).GetL1InfoTreeMerkleProofFromIndexToRoot 0 0 =
        .error .inconsistentState ∧
    (L1InfoTreeSync.mk (placeholderProcessor true)).GetInitL1InfoRootMap =
        .error .inconsistentState ∧
    (L1InfoTreeSync.mk (placeholderProcessor true)).GetProcessedBlockUntil 0 =
        .error .inconsistentState :=
  l1InfoTreeSync_halted_all_reads (L1InfoTreeSync.mk (placeholderProcessor true)) rfl
    (fun a b => a + b) 0 0 0 0 0 0 0 0

namespace EpochNotifier

/-- The effective notification threshold of `isNotificationRequired`: the
configured percentage capped by the last-block-of-epoch percentage — the
minimum of the two ratios. -/
@[reducible] def minThreshold (c : ConfigEpochNotifierPerBlock) : ℚ :=
  min ((c.epochNotificationPercentage : ℚ) / 100)
    (((c.numBlockPerEpoch - 1 : Nat) : ℚ) / (c.numBlockPerEpoch : ℚ))

/-- A block at which the notifier can fire: strictly after the starting epoch
block (the starting block itself is pre-seeded as `lastBlockSeen`) and with
within-epoch percentage at or above the effective threshold. -/
def qualifyingB (c : ConfigEpochNotifierPerBlock) (b : Nat) : Bool :=
  decide (c.startingEpochBlock < b) && decide (minThreshold c ≤ percentEpoch c b)

/-- The event the notifier publishes at block `b`. -/
def mkEvent (c : ConfigEpochNotifierPerBlock) (b : Nat) : EpochEvent :=
  { epoch := epochNumber c b
    pendingBlocks := endBlockEpoch c (epochNumber c b) - b }

/-- `b` is the first qualifying block of its epoch within `blocks`. -/
def firstOfEpochB (c : ConfigEpochNotifierPerBlock) (blocks : List Nat) (b : Nat) : Bool :=
  blocks.all fun x =>
    !(decide (x < b) && decide (epochNumber c x = epochNumber c b) && qualifyingB c x)

/-- The cap performed by `isNotificationRequired` computes the minimum. -/
theorem cappedThreshold_eq_min (tp mtp : ℚ) :
    (if tp > mtp then mtp else tp) = min tp mtp := by
  rcases le_or_lt tp mtp with h | h
  · rw [if_neg (not_lt.mpr h), min_eq_left h]
  · rw [if_pos h, min_eq_right h.le]

/-- `epochNumber` is monotone in the block number. -/
theorem epochNumber_mono (c : ConfigEpochNotifierPerBlock) {a b : Nat} (h : a ≤ b) :
    epochNumber c a ≤ epochNumber c b := by
  unfold epochNumber
  by_cases ha : a < c.startingEpochBlock
  · by_cases hb : b < c.startingEpochBlock <;> simp [ha, hb]
  · rw [if_neg ha, if_neg (by omega)]
    exact Nat.add_le_add_left
      (Nat.div_le_div_right (Nat.sub_le_sub_right h c.startingEpochBlock)) 1

/-- Blocks after the starting epoch block live in epoch 1 or later. -/
theorem one_le_epochNumber (c : ConfigEpochNotifierPerBlock) {b : Nat}
    (h : c.startingEpochBlock ≤ b) : 1 ≤ epochNumber c b := by
  unfold epochNumber
  rw [if_neg (by omega)]
  exact Nat.le_add_right 1 _

/-- `isNotificationRequired`, written with the capped threshold as a
minimum. -/
theorem isNotificationRequired_eq (c : ConfigEpochNotifierPerBlock) (b W : Nat) :
    isNotificationRequired c b W =
      (decide (minThreshold c ≤ percentEpoch c b) && decide (W < epochNumber c b + 1),
        epochNumber c b) := by
  unfold isNotificationRequired
  dsimp only
  rw [cappedThreshold_eq_min]
  by_cases hq : minThreshold c ≤ percentEpoch c b
  · rw [if_neg (not_lt.mpr hq), decide_eq_true hq, Bool.true_and]
  · rw [if_pos (lt_of_not_ge hq), decide_eq_false hq, Bool.false_and]

/-- One notifier step at a fresh block strictly after the starting epoch
block: it fires exactly at qualifying blocks of a not-yet-notified epoch. -/
theorem step_eq (c : ConfigEpochNotifierPerBlock) (L W b : Nat)
    (hb : c.startingEpochBlock < b) (hL : L < b) :
    step c ⟨L, W⟩ b =
      if qualifyingB c b && decide (W ≤ epochNumber c b) then
        (⟨b, epochNumber c b + 1⟩, some (mkEvent c b))
      else (⟨b, W⟩, none) := by
  have hqb : qualifyingB c b = decide (minThreshold c ≤ percentEpoch c b) := by
    simp [qualifyingB, decide_eq_true hb]
  unfold step
  rw [if_neg (by omega : ¬ b < c.startingEpochBlock)]
  rw [if_neg (show ¬ b ≤ (⟨L, W⟩ : InternalStatus).lastBlockSeen from by
    dsimp only
    omega)]
  dsimp only
  rw [isNotificationRequired_eq]
  dsimp only
  rw [hqb, show decide (W < epochNumber c b + 1) = decide (W ≤ epochNumber c b) from
    decide_eq_decide.mpr Nat.lt_add_one_iff]
  rfl

/-- The notifier run from an arbitrary status fires exactly at the first
qualifying block of each epoch not yet waited past. -/
theorem runBlocks_eq_filter (c : ConfigEpochNotifierPerBlock) (blocks : List Nat) :
    ∀ (L W : Nat),
      blocks.Pairwise (· < ·) →
      (∀ b ∈ blocks, c.startingEpochBlock < b ∧ L < b) →
      runBlocks c ⟨L, W⟩ blocks =
        (blocks.filter fun b => qualifyingB c b && decide (W ≤ epochNumber c b) &&
          firstOfEpochB c blocks b).map fun b => (b, mkEvent c b) := by
  induction blocks with
  | nil => intro L W _ _; rfl
  | cons b bs ih =>
    intro L W hpw hall
    have hb := (hall b (List.mem_cons_self b bs)).1
    have hL := (hall b (List.mem_cons_self b bs)).2
    have hlt : ∀ x ∈ bs, b < x := (List.pairwise_cons.mp hpw).1
    have hpw' : bs.Pairwise (· < ·) := (List.pairwise_cons.mp hpw).2
    have hall' : ∀ x ∈ bs, c.startingEpochBlock < x ∧ b < x :=
      fun x hx => ⟨lt_trans hb (hlt x hx), hlt x hx⟩
    unfold runBlocks
    rw [step_eq c L W b hb hL]
    by_cases hfire : (qualifyingB c b && decide (W ≤ epochNumber c b)) = true
    · rw [if_pos hfire]
      dsimp only
      rw [ih b (epochNumber c b + 1) hpw' hall']
      have hqb : qualifyingB c b = true := (Bool.and_eq_true_iff.mp hfire).1
      have hWb : W ≤ epochNumber c b := by
        have h2 := (Bool.and_eq_true_iff.mp hfire).2
        simpa using h2
      have hPb : (qualifyingB c b && decide (W ≤ epochNumber c b) &&
          firstOfEpochB c (b :: bs) b) = true := by
        rw [hfire, Bool.true_and]
        simp only [firstOfEpochB, List.all_eq_true]
        intro x hx
        rcases List.mem_cons.mp hx with rfl | hx
        · simp
        · simp [Nat.not_lt.mpr (le_of_lt (hlt x hx))]
      rw [List.filter_cons, if_pos hPb, List.map_cons]
      congr 1
      apply congrArg
      apply List.filter_congr
      intro x hx
      have hbx : b < x := hlt x hx
      have hmono : epochNumber c b ≤ epochNumber c x := epochNumber_mono c hbx.le
      by_cases hep : epochNumber c x = epochNumber c b
      · have h1 : firstOfEpochB c (b :: bs) x = false := by
          simp [firstOfEpochB, List.all_cons, hbx, hep.symm, hqb]
        have h2 : decide (epochNumber c b + 1 ≤ epochNumber c x) = false := by
          rw [hep]
          simp
        rw [h1, h2]
        simp
      · have h1 : firstOfEpochB c (b :: bs) x = firstOfEpochB c bs x := by
          simp [firstOfEpochB, List.all_cons, Ne.symm hep]
        have h2 : decide (W ≤ epochNumber c x) = true :=
          decide_eq_true (le_trans hWb hmono)
        have h3 : decide (epochNumber c b + 1 ≤ epochNumber c x) = true :=
          decide_eq_true (Nat.lt_of_le_of_ne hmono (fun h => hep h.symm))
        rw [h1, h2, h3]
    · rw [if_neg hfire]
      dsimp only
      rw [ih b W hpw' hall']
      have hf : (qualifyingB c b && decide (W ≤ epochNumber c b)) = false :=
        Bool.eq_false_iff.mpr hfire
      have hPb : (qualifyingB c b && decide (W ≤ epochNumber c b) &&
          firstOfEpochB c (b :: bs) b) = false := by
        rw [hf, Bool.false_and]
      rw [List.filter_cons, if_neg (by simp [hPb])]
      apply congrArg
      apply List.filter_congr
      intro x hx
      have hbx : b < x := hlt x hx
      by_cases hqbb : qualifyingB c b = true
      · have hWb : decide (W ≤ epochNumber c b) = false := by
          rcases Bool.and_eq_false_iff.mp hf with h | h
          · exact absurd hqbb (by simp [h])
          · exact h
        by_cases hep : epochNumber c x = epochNumber c b
        · have h2 : decide (W ≤ epochNumber c x) = false := by
            rw [hep]
            exact hWb
          rw [h2]
          simp
        · have h1 : firstOfEpochB c (b :: bs) x = firstOfEpochB c bs x := by
            simp [firstOfEpochB, List.all_cons, Ne.symm hep]
          rw [h1]
      · have h1 : firstOfEpochB c (b :: bs) x = firstOfEpochB c bs x := by
          simp [firstOfEpochB, List.all_cons, hqbb]
        rw [h1]

/-- The waiting epoch seeded by `startInternal` is 1. -/
theorem initialWaiting_eq_one (c : ConfigEpochNotifierPerBlock) :
    epochNumber c c.startingEpochBlock = 1 := by
  unfold epochNumber
  rw [if_neg (lt_irrefl _)]
  simp [Nat.sub_self]

end EpochNotifier

/-- Claim C5 counterexample: with `start = 100`, `N = 2`, `pct = 60` (a valid
configuration) and blocks 100, 101, the notifier publishes the epoch-1 event
at block 101, whose within-epoch percentage 1/2 is strictly below
`max(pct/100, (N-1)/N) = 3/5` — so the event is not fired at a block whose
percentage reaches that maximum; the effective threshold is the minimum of
the two ratios, not the maximum. -/
theorem epochNotifier_maxThreshold_counterexample :
    EpochNotifier.validate ⟨100, 2, 60⟩ = true ∧
    EpochNotifier.runBlocks ⟨100, 2, 60⟩ (EpochNotifier.initialStatus ⟨100, 2, 60⟩)
      [100, 101] = [(101, { epoch := 1, pendingBlocks := 1 })] ∧
    EpochNotifier.percentEpoch ⟨100, 2, 60⟩ 101 <
      max ((60 : ℚ) / 100) (((2 - 1 : Nat) : ℚ) / ((2 : Nat) : ℚ)) := by
  refine ⟨by decide, ?_, ?_⟩
  · norm_num [EpochNotifier.runBlocks, EpochNotifier.step, EpochNotifier.initialStatus,
      EpochNotifier.isNotificationRequired, EpochNotifier.percentEpoch,
      EpochNotifier.epochNumber, EpochNotifier.startingBlockEpoch,
      EpochNotifier.endBlockEpoch]
  · norm_num [EpochNotifier.percentEpoch, EpochNotifier.epochNumber,
      EpochNotifier.startingBlockEpoch]

/-- Claim C5 (amended): for every valid configuration and every strictly
increasing stream of blocks at or after `StartingEpochBlock`, the published
events are exactly one per epoch, fired at the first stream block strictly
after `StartingEpochBlock` whose within-epoch percentage is at or above
`min(pct/100, (N-1)/N)` (the configured percentage capped by the
last-block-of-epoch percentage), carrying that block's epoch number; the
published epochs are pairwise distinct.  In particular, with `start = 100`,
`N = 10`, `pct = 50`, feeding blocks 100..109 publishes the single event
`{epoch = 1}` at block 105, a block at or above the 50% threshold. -/
theorem epochNotifier_closingEpoch_events (c : ConfigEpochNotifierPerBlock)
    (blocks : List Nat)
    (hval : EpochNotifier.validate c = true)
    (hchain : blocks.Chain' (· < ·))
    (hge : ∀ b ∈ blocks, c.startingEpochBlock ≤ b) :
    EpochNotifier.runBlocks c (EpochNotifier.initialStatus c) blocks =
      (blocks.filter fun b => EpochNotifier.qualifyingB c b &&
        EpochNotifier.firstOfEpochB c blocks b).map
        (fun b => (b, EpochNotifier.mkEvent c b)) ∧
    (EpochNotifier.runBlocks c (EpochNotifier.initialStatus c) blocks).Pairwise
      (fun x y => x.2.epoch ≠ y.2.epoch) ∧
    EpochNotifier.runBlocks ⟨100, 10, 50⟩ (EpochNotifier.initialStatus ⟨100, 10, 50⟩)
      (List.range' 100 10) = [(105, { epoch := 1, pendingBlocks := 5 })] ∧
    EpochNotifier.minThreshold ⟨100, 10, 50⟩ ≤ EpochNotifier.percentEpoch ⟨100, 10, 50⟩ 105 := by
  have hpw : blocks.Pairwise (· < ·) := List.chain'_iff_pairwise.mp hchain
  have habsorb : ∀ (l : List Nat), (∀ b ∈ l, c.startingEpochBlock < b) →
      (l.filter fun b => EpochNotifier.qualifyingB c b &&
        decide (1 ≤ EpochNotifier.epochNumber c b) && EpochNotifier.firstOfEpochB c blocks b) =
      (l.filter fun b => EpochNotifier.qualifyingB c b &&
        EpochNotifier.firstOfEpochB c blocks b) := by
    intro l hl
    apply List.filter_congr
    intro x hx
    rw [decide_eq_true (EpochNotifier.one_le_epochNumber c (le_of_lt (hl x hx)))]
    rw [Bool.and_true]
  have hmain : EpochNotifier.runBlocks c (EpochNotifier.initialStatus c) blocks =
      (blocks.filter fun b => EpochNotifier.qualifyingB c b &&
        EpochNotifier.firstOfEpochB c blocks b).map
        (fun b => (b, EpochNotifier.mkEvent c b)) := by
    have hinit : EpochNotifier.initialStatus c =
        ⟨c.startingEpochBlock, 1⟩ := by
      unfold EpochNotifier.initialStatus
      rw [EpochNotifier.initialWaiting_eq_one]
    rw [hinit]
    rcases blocks with _ | ⟨b0, bs⟩
    · rfl
    have hlt0 : ∀ x ∈ bs, b0 < x := (List.pairwise_cons.mp hpw).1
    have hpw' : bs.Pairwise (· < ·) := (List.pairwise_cons.mp hpw).2
    by_cases hb0 : b0 = c.startingEpochBlock
    · have hlt0' : ∀ x ∈ bs, c.startingEpochBlock < x := fun x hx => hb0 ▸ hlt0 x hx
      have hstep : EpochNotifier.step c ⟨c.startingEpochBlock, 1⟩ b0 =
          (⟨c.startingEpochBlock, 1⟩, none) := by
        unfold EpochNotifier.step
        rw [if_neg (by omega : ¬ b0 < c.startingEpochBlock)]
        rw [if_pos (show b0 ≤
          (⟨c.startingEpochBlock, 1⟩ : EpochNotifier.InternalStatus).lastBlockSeen from by
          dsimp only
          omega)]
      unfold EpochNotifier.runBlocks
      rw [hstep]
      dsimp only
      have hq0 : EpochNotifier.qualifyingB c b0 = false := by
        simp [EpochNotifier.qualifyingB, hb0]
      rw [List.filter_cons, if_neg (by simp [hq0])]
      rw [EpochNotifier.runBlocks_eq_filter c bs c.startingEpochBlock 1 hpw'
        (fun x hx => ⟨hlt0' x hx, hlt0' x hx⟩)]
      apply congrArg
      have hshift : List.filter (fun x => EpochNotifier.qualifyingB c x &&
          decide (1 ≤ EpochNotifier.epochNumber c x) &&
          EpochNotifier.firstOfEpochB c bs x) bs =
        List.filter (fun x => EpochNotifier.qualifyingB c x &&
          decide (1 ≤ EpochNotifier.epochNumber c x) &&
          EpochNotifier.firstOfEpochB c (b0 :: bs) x) bs := by
        apply List.filter_congr
        intro x hx
        have h1 : EpochNotifier.firstOfEpochB c (b0 :: bs) x =
            EpochNotifier.firstOfEpochB c bs x := by
          simp [EpochNotifier.firstOfEpochB, List.all_cons, hq0]
        rw [h1]
      rw [hshift, habsorb bs hlt0']
    · have hb0' : c.startingEpochBlock < b0 :=
        lt_of_le_of_ne (hge b0 (List.mem_cons_self b0 bs)) (Ne.symm hb0)
      have hall : ∀ x ∈ b0 :: bs, c.startingEpochBlock < x ∧ c.startingEpochBlock < x := by
        intro x hx
        rcases List.mem_cons.mp hx with rfl | hx
        · exact ⟨hb0', hb0'⟩
        · exact ⟨lt_trans hb0' (hlt0 x hx), lt_trans hb0' (hlt0 x hx)⟩
      rw [EpochNotifier.runBlocks_eq_filter c (b0 :: bs) c.startingEpochBlock 1 hpw hall]
      apply congrArg
      exact habsorb (b0 :: bs) (fun x hx => (hall x hx).1)
  refine ⟨hmain, ?_, ?_, ?_⟩
  · rw [hmain, List.pairwise_map]
    have hpf : (blocks.filter fun b => EpochNotifier.qualifyingB c b &&
        EpochNotifier.firstOfEpochB c blocks b).Pairwise (· < ·) :=
      hpw.sublist (List.filter_sublist blocks)
    refine List.Pairwise.imp_of_mem ?_ hpf
    intro a b ha hb hab
    have hamem := List.mem_filter.mp ha
    have hbmem := List.mem_filter.mp hb
    have hqa : EpochNotifier.qualifyingB c a = true :=
      (Bool.and_eq_true_iff.mp hamem.2).1
    have hfb : EpochNotifier.firstOfEpochB c blocks b = true :=
      (Bool.and_eq_true_iff.mp hbmem.2).2
    intro hep
    have := (List.all_eq_true.mp hfb) a hamem.1
    simp only [EpochNotifier.mkEvent] at hep
    simp [hab, hep, hqa] at this
  · norm_num [List.range', EpochNotifier.runBlocks, EpochNotifier.step,
      EpochNotifier.initialStatus, EpochNotifier.isNotificationRequired,
      EpochNotifier.percentEpoch, EpochNotifier.epochNumber,
      EpochNotifier.startingBlockEpoch, EpochNotifier.endBlockEpoch]
  · norm_num [EpochNotifier.minThreshold, EpochNotifier.percentEpoch,
      EpochNotifier.epochNumber, EpochNotifier.startingBlockEpoch]

/-- Witness for `epochNotifier_closingEpoch_events`: the concrete
configuration `{start = 100, N = 10, pct = 50}` on blocks 100..109. -/
theorem epochNotifier_closingEpoch_events_witness :
    EpochNotifier.runBlocks ⟨100, 10, 50⟩ (EpochNotifier.initialStatus ⟨100, 10, 50⟩)
        (List.range' 100 10) =
      ((List.range' 100 10).filter fun b => EpochNotifier.qualifyingB ⟨100, 10, 50⟩ b &&
        EpochNotifier.firstOfEpochB ⟨100, 10, 50⟩ (List.range' 100 10) b).map
        (fun b => (b, EpochNotifier.mkEvent ⟨100, 10, 50⟩ b)) ∧
    (EpochNotifier.runBlocks ⟨100, 10, 50⟩ (EpochNotifier.initialStatus ⟨100, 10, 50⟩)
        (List.range' 100 10)).Pairwise (fun x y => x.2.epoch ≠ y.2.epoch) ∧
    EpochNotifier.runBlocks ⟨100, 10, 50⟩ (EpochNotifier.initialStatus ⟨100, 10, 50⟩)
      (List.range' 100 10) = [(105, { epoch := 1, pendingBlocks := 5 })] ∧
    EpochNotifier.minThreshold ⟨100, 10, 50⟩ ≤
      EpochNotifier.percentEpoch ⟨100, 10, 50⟩ 105 :=
  epochNotifier_closingEpoch_events ⟨100, 10, 50⟩ (List.range' 100 10)
    (by decide) (by norm_num [List.range', List.chain'_cons]) (by decide)

/-- Claim C6 counterexample: an iteration scanning `[5, 10]` (chunk size 5,
last block 20) finds no matching logs while the last finalized block is 3,
behind the scanned range: nothing at all is emitted — no checkpoint block for
`requestToBlock = 10` and none for `lastFinalized` — and the range is
extended instead. -/
theorem downloadIteration_noCheckpoint_counterexample :
    (Downloader.downloadIteration false 5 (fun n => ⟨n, 0, 0, 0⟩) 5 10 20 3 []).emitted = [] ∧
    (Downloader.downloadIteration false 5 (fun n => ⟨n, 0, 0, 0⟩) 5 10 20 3 []).toBlock = 15 :=
  ⟨rfl, rfl⟩

/-- The safe-zone half of the amended claim C6. -/
theorem downloadIteration_safeZone (isFin : Bool) (chunk : Nat)
    (getHeader : Nat → EVMBlockHeader) (fromBlock toBlock lastBlock lastFinHdr : Nat)
    (blocks : List ProducedBlock) :
    (if toBlock ≥ lastBlock then lastBlock else toBlock) ≤ min lastBlock lastFinHdr →
      ((Downloader.needsEmptyBlock blocks
          (if toBlock ≥ lastBlock then lastBlock else toBlock) = true →
        (Downloader.downloadIteration isFin chunk getHeader
            fromBlock toBlock lastBlock lastFinHdr blocks).emitted =
          Downloader.reportBlocks isFin (min lastBlock lastFinHdr) blocks ++
            [Downloader.reportEmptyBlock isFin getHeader
              (if toBlock ≥ lastBlock then lastBlock else toBlock)
              (min lastBlock lastFinHdr)]) ∧
       (Downloader.needsEmptyBlock blocks
          (if toBlock ≥ lastBlock then lastBlock else toBlock) = false →
        (Downloader.downloadIteration isFin chunk getHeader
            fromBlock toBlock lastBlock lastFinHdr blocks).emitted =
          Downloader.reportBlocks isFin (min lastBlock lastFinHdr) blocks)) := by
  intro hsafe
  unfold Downloader.downloadIteration
  rw [if_pos hsafe]
  dsimp only
  constructor
  · intro hneed
    rw [if_pos hneed]
  · intro hneed
    rw [if_neg (by simp [hneed])]

/-- The unsafe-zone half of the amended claim C6. -/
theorem downloadIteration_unsafeZone (isFin : Bool) (chunk : Nat)
    (getHeader : Nat → EVMBlockHeader) (fromBlock toBlock lastBlock lastFinHdr : Nat)
    (blocks : List ProducedBlock)
    (hOutZone : ¬ (if toBlock ≥ lastBlock then lastBlock else toBlock) ≤
      min lastBlock lastFinHdr) :
    (blocks = [] → fromBlock ≤ min lastBlock lastFinHdr →
      (Downloader.downloadIteration isFin chunk getHeader
          fromBlock toBlock lastBlock lastFinHdr blocks).emitted =
        [Downloader.reportEmptyBlock isFin getHeader
          (min lastBlock lastFinHdr) (min lastBlock lastFinHdr)]) ∧
    (blocks = [] → ¬ fromBlock ≤ min lastBlock lastFinHdr →
      (Downloader.downloadIteration isFin chunk getHeader
          fromBlock toBlock lastBlock lastFinHdr blocks).emitted = [] ∧
      (Downloader.downloadIteration isFin chunk getHeader
          fromBlock toBlock lastBlock lastFinHdr blocks).fromBlock = fromBlock ∧
      (Downloader.downloadIteration isFin chunk getHeader
          fromBlock toBlock lastBlock lastFinHdr blocks).toBlock = toBlock + chunk) ∧
    (blocks ≠ [] →
      (Downloader.downloadIteration isFin chunk getHeader
          fromBlock toBlock lastBlock lastFinHdr blocks).emitted =
        Downloader.reportBlocks isFin (min lastBlock lastFinHdr) blocks) := by
  refine ⟨?_, ?_, ?_⟩
  · intro hempty hge
    subst hempty
    unfold Downloader.downloadIteration
    rw [if_neg hOutZone, if_pos (show ([] : List ProducedBlock).length = 0 from rfl),
      if_pos hge]
  · intro hempty hlt
    subst hempty
    unfold Downloader.downloadIteration
    rw [if_neg hOutZone, if_pos (show ([] : List ProducedBlock).length = 0 from rfl),
      if_neg hlt]
    exact ⟨rfl, rfl, rfl⟩
  · intro hne
    unfold Downloader.downloadIteration
    rw [if_neg hOutZone, if_neg (by simpa [List.length_eq_zero] using hne)]

/-- Claim C6 (amended): in an iteration of the downloader loop over the
scanned range `[fromBlock, requestToBlock]`, when the range is inside the
finalized zone (`requestToBlock ≤ lastFinalized`) and the produced list is
empty or ends below `requestToBlock`, an empty checkpoint block is emitted
for `requestToBlock` after the produced blocks; in particular an empty range
inside the finalized zone always emits a checkpoint for `requestToBlock`.
Outside the finalized zone a checkpoint is emitted only when the produced
list is empty and `lastFinalized ≥ fromBlock`, and then for `lastFinalized`;
with an empty list and `lastFinalized < fromBlock` nothing is emitted and the
range is extended; with a non-empty list only the produced blocks are
emitted. -/
theorem downloadIteration_checkpoint (isFin : Bool) (chunk : Nat)
    (getHeader : Nat → EVMBlockHeader) (fromBlock toBlock lastBlock lastFinHdr : Nat)
    (blocks : List ProducedBlock) :
    ((if toBlock ≥ lastBlock then lastBlock else toBlock) ≤ min lastBlock lastFinHdr →
      ((Downloader.needsEmptyBlock blocks
          (if toBlock ≥ lastBlock then lastBlock else toBlock) = true →
        (Downloader.downloadIteration isFin chunk getHeader
            fromBlock toBlock lastBlock lastFinHdr blocks).emitted =
          Downloader.reportBlocks isFin (min lastBlock lastFinHdr) blocks ++
            [Downloader.reportEmptyBlock isFin getHeader
              (if toBlock ≥ lastBlock then lastBlock else toBlock)
              (min lastBlock lastFinHdr)]) ∧
       (Downloader.needsEmptyBlock blocks
          (if toBlock ≥ lastBlock then lastBlock else toBlock) = false →
        (Downloader.downloadIteration isFin chunk getHeader
            fromBlock toBlock lastBlock lastFinHdr blocks).emitted =
          Downloader.reportBlocks isFin (min lastBlock lastFinHdr) blocks))) ∧
    (¬ (if toBlock ≥ lastBlock then lastBlock else toBlock) ≤ min lastBlock lastFinHdr →
      ((blocks = [] → fromBlock ≤ min lastBlock lastFinHdr →
        (Downloader.downloadIteration isFin chunk getHeader
            fromBlock toBlock lastBlock lastFinHdr blocks).emitted =
          [Downloader.reportEmptyBlock isFin getHeader
            (min lastBlock lastFinHdr) (min lastBlock lastFinHdr)]) ∧
       (blocks = [] → ¬ fromBlock ≤ min lastBlock lastFinHdr →
        (Downloader.downloadIteration isFin chunk getHeader
            fromBlock toBlock lastBlock lastFinHdr blocks).emitted = [] ∧
        (Downloader.downloadIteration isFin chunk getHeader
            fromBlock toBlock lastBlock lastFinHdr blocks).fromBlock = fromBlock ∧
        (Downloader.downloadIteration isFin chunk getHeader
            fromBlock toBlock lastBlock lastFinHdr blocks).toBlock = toBlock + chunk) ∧
       (blocks ≠ [] →
        (Downloader.downloadIteration isFin chunk getHeader
            fromBlock toBlock lastBlock lastFinHdr blocks).emitted =
          Downloader.reportBlocks isFin (min lastBlock lastFinHdr) blocks))) :=
  ⟨downloadIteration_safeZone isFin chunk getHeader fromBlock toBlock lastBlock
      lastFinHdr blocks,
    downloadIteration_unsafeZone isFin chunk getHeader fromBlock toBlock lastBlock
      lastFinHdr blocks⟩

/-- Witness for `downloadIteration_checkpoint`: a safe-zone iteration over
`[3, 8]` with no logs emits exactly the empty checkpoint block for block 8. -/
theorem downloadIteration_checkpoint_witness :
    (Downloader.downloadIteration false 5 (fun n => ⟨n, 0, 0, 0⟩) 3 8 20 10 []).emitted =
      Downloader.reportBlocks false (min 20 10) [] ++
        [Downloader.reportEmptyBlock false (fun n => ⟨n, 0, 0, 0⟩) (if (8 : Nat) ≥ 20 then 20 else 8)
          (min 20 10)] :=
  ((downloadIteration_checkpoint false 5 (fun n => ⟨n, 0, 0, 0⟩) 3 8 20 10 []).1
    (by decide)).1 rfl

/-- Claim C8 counterexample: the claim-proof lookup does not always return the
index of the smallest covering leaf.  With leaves at blocks 1, 2, 3 whose
mainnet exit roots 10, 11, 12 resolve to bridge root indices 5, 5, 9 and
depositCount 5, the first probe (block 2) hits root index exactly equal to the
deposit count and the search answers that leaf's index 1, although the leaf at
block 1 already covers depositCount 5 and has index 0. -/
theorem claimProof_smallestLeaf_counterexample :
    BridgeService.getFirstL1InfoTreeIndexForL1Bridge
        ⟨[⟨1, 0, 10, 0, 0⟩, ⟨2, 1, 11, 0, 0⟩, ⟨3, 2, 12, 0, 0⟩],
          [(10, 5), (11, 5), (12, 9)]⟩ 5 = .ok 1 ∧
      List.find?
        (BridgeService.coveringB (fun l => l.mainnetExitRoot) [(10, 5), (11, 5), (12, 9)] 5)
        [⟨1, 0, 10, 0, 0⟩, ⟨2, 1, 11, 0, 0⟩, (⟨3, 2, 12, 0, 0⟩ : L1InfoTreeLeaf)]
        = some ⟨1, 0, 10, 0, 0⟩ ∧
      (1 : Nat) ≠ 0 :=
  ⟨rfl, rfl, by decide⟩

/-- Claim C8 (amended): over a non-empty store whose entries carry positive,
strictly increasing block numbers and strictly increasing exit-root indices,
the claim-proof lookup returns the L1 info tree index of the smallest
(first) L1 info leaf whose mainnet exit-root index is at or above
depositCount (L1 side), respectively the index of the first L1 info leaf
carrying the rollup exit root of the smallest covering verified batch (L2
side), and returns ErrNotOnL1Info when no covering entry exists. -/
theorem claimProof_firstCoveringLeaf
    (storeL1 : BridgeService.L1BridgeIndexStore) (dc1 : Nat) (f1 : L1InfoTreeLeaf → Nat)
    (storeL2 : BridgeService.L2BridgeIndexStore) (dc2 : Nat) (f2 : VerifyBatchesRec → Nat)
    (hsort1 : storeL1.leaves.Pairwise (fun a b => a.blockNumber < b.blockNumber))
    (hmono1 : storeL1.leaves.Pairwise (fun a b => f1 a < f1 b))
    (hres1 : ∀ l ∈ storeL1.leaves,
      storeL1.rootIndexByLER.lookup l.mainnetExitRoot = some (f1 l))
    (hpos1 : ∀ l ∈ storeL1.leaves, 1 ≤ l.blockNumber)
    (hne1 : storeL1.leaves ≠ [])
    (hsort2 : storeL2.verifiedBatches.Pairwise (fun a b => a.blockNumber < b.blockNumber))
    (hmono2 : storeL2.verifiedBatches.Pairwise (fun a b => f2 a < f2 b))
    (hres2 : ∀ v ∈ storeL2.verifiedBatches,
      storeL2.rootIndexByLER.lookup v.exitRoot = some (f2 v))
    (hpos2 : ∀ v ∈ storeL2.verifiedBatches, 1 ≤ v.blockNumber)
    (hne2 : storeL2.verifiedBatches ≠ []) :
    (∀ l, storeL1.leaves.find?
        (BridgeService.coveringB (fun l => l.mainnetExitRoot) storeL1.rootIndexByLER dc1)
        = some l →
      BridgeService.getFirstL1InfoTreeIndexForL1Bridge storeL1 dc1
        = .ok l.l1InfoTreeIndex) ∧
    (storeL1.leaves.find?
        (BridgeService.coveringB (fun l => l.mainnetExitRoot) storeL1.rootIndexByLER dc1)
        = none →
      BridgeService.getFirstL1InfoTreeIndexForL1Bridge storeL1 dc1
        = .error .notOnL1Info) ∧
    (∀ v, storeL2.verifiedBatches.find?
        (BridgeService.coveringB (fun v => v.exitRoot) storeL2.rootIndexByLER dc2)
        = some v →
      BridgeService.getFirstL1InfoTreeIndexForL2Bridge storeL2 dc2 =
        (BridgeService.firstL1InfoWithRollupExitRoot storeL2.leaves v.rollupExitRoot).map
          (fun info => info.l1InfoTreeIndex)) ∧
    (storeL2.verifiedBatches.find?
        (BridgeService.coveringB (fun v => v.exitRoot) storeL2.rootIndexByLER dc2)
        = none →
      BridgeService.getFirstL1InfoTreeIndexForL2Bridge storeL2 dc2
        = .error .notOnL1Info) := by
  obtain ⟨lastInfo, hlast1⟩ : ∃ z, storeL1.leaves.getLast? = some z := by
    cases h : storeL1.leaves.getLast? with
    | none => exact absurd (List.getLast?_eq_none_iff.mp h) hne1
    | some z => exact ⟨z, rfl⟩
  obtain ⟨firstInfo, hhead1⟩ : ∃ z, storeL1.leaves.head? = some z := by
    cases h : storeL1.leaves.head? with
    | none => exact absurd (List.head?_eq_none_iff.mp h) hne1
    | some z => exact ⟨z, rfl⟩
  have hlmem1 : lastInfo ∈ storeL1.leaves := by
    obtain ⟨hne, hx⟩ := List.mem_getLast?_eq_getLast (Option.mem_def.mpr hlast1)
    rw [hx]
    exact List.getLast_mem hne
  have hrun1 := BridgeService.coveringSearch_run (fun l => l.blockNumber)
    (fun l => l.mainnetExitRoot) storeL1.leaves storeL1.rootIndexByLER dc1 f1
    hsort1 hmono1 hres1 hpos1 firstInfo lastInfo hhead1 hlast1
  have hroot1 : BridgeService.getRootIndexByLER storeL1.rootIndexByLER
      lastInfo.mainnetExitRoot = .ok (f1 lastInfo) := by
    unfold BridgeService.getRootIndexByLER
    rw [hres1 lastInfo hlmem1]
  obtain ⟨lastVer, hlast2⟩ : ∃ z, storeL2.verifiedBatches.getLast? = some z := by
    cases h : storeL2.verifiedBatches.getLast? with
    | none => exact absurd (List.getLast?_eq_none_iff.mp h) hne2
    | some z => exact ⟨z, rfl⟩
  obtain ⟨firstVer, hhead2⟩ : ∃ z, storeL2.verifiedBatches.head? = some z := by
    cases h : storeL2.verifiedBatches.head? with
    | none => exact absurd (List.head?_eq_none_iff.mp h) hne2
    | some z => exact ⟨z, rfl⟩
  have hlmem2 : lastVer ∈ storeL2.verifiedBatches := by
    obtain ⟨hne, hx⟩ := List.mem_getLast?_eq_getLast (Option.mem_def.mpr hlast2)
    rw [hx]
    exact List.getLast_mem hne
  have hrun2 := BridgeService.coveringSearch_run (fun v => v.blockNumber)
    (fun v => v.exitRoot) storeL2.verifiedBatches storeL2.rootIndexByLER dc2 f2
    hsort2 hmono2 hres2 hpos2 firstVer lastVer hhead2 hlast2
  have hroot2 : BridgeService.getRootIndexByLER storeL2.rootIndexByLER
      lastVer.exitRoot = .ok (f2 lastVer) := by
    unfold BridgeService.getRootIndexByLER
    rw [hres2 lastVer hlmem2]
  refine ⟨?_, ?_, ?_, ?_⟩
  · intro l hl
    obtain ⟨hnotlt, hloop⟩ := hrun1.1 l hl
    unfold BridgeService.getFirstL1InfoTreeIndexForL1Bridge
    rw [hlast1]
    dsimp only
    rw [hroot1]
    dsimp only
    rw [if_neg hnotlt, hhead1]
    dsimp only
    rw [hloop]
  · intro hnone
    have hlt := hrun1.2 hnone
    unfold BridgeService.getFirstL1InfoTreeIndexForL1Bridge
    rw [hlast1]
    dsimp only
    rw [hroot1]
    dsimp only
    rw [if_pos hlt]
  · intro v hv
    obtain ⟨hnotlt, hloop⟩ := hrun2.1 v hv
    unfold BridgeService.getFirstL1InfoTreeIndexForL2Bridge
    rw [hlast2]
    dsimp only
    rw [hroot2]
    dsimp only
    rw [if_neg hnotlt, hhead2]
    dsimp only
    rw [hloop]
    dsimp only
    rcases hF : BridgeService.firstL1InfoWithRollupExitRoot storeL2.leaves v.rollupExitRoot
      with e | info <;> rfl
  · intro hnone
    have hlt := hrun2.2 hnone
    unfold BridgeService.getFirstL1InfoTreeIndexForL2Bridge
    rw [hlast2]
    dsimp only
    rw [hroot2]
    dsimp only
    rw [if_pos hlt]

/-- Witness for `claimProof_firstCoveringLeaf`: a two-leaf L1 store with root
indices 3, 7 and depositCount 5 answers the second leaf's index 1; a
two-batch L2 store answers the index 9 of the leaf carrying the covering
batch's rollup exit root. -/
theorem claimProof_firstCoveringLeaf_witness :
    BridgeService.getFirstL1InfoTreeIndexForL1Bridge
        ⟨[⟨1, 0, 10, 0, 0⟩, ⟨2, 1, 11, 0, 0⟩], [(10, 3), (11, 7)]⟩ 5 = .ok 1 ∧
      BridgeService.getFirstL1InfoTreeIndexForL2Bridge
        ⟨[⟨1, 20, 30⟩, ⟨2, 21, 31⟩], [(20, 3), (21, 7)], [⟨5, 9, 0, 31, 0⟩]⟩ 5
        = .ok 9 := by
  have h := claimProof_firstCoveringLeaf
    ⟨[⟨1, 0, 10, 0, 0⟩, ⟨2, 1, 11, 0, 0⟩], [(10, 3), (11, 7)]⟩ 5
    (fun l => if l.mainnetExitRoot = 10 then 3 else 7)
    ⟨[⟨1, 20, 30⟩, ⟨2, 21, 31⟩], [(20, 3), (21, 7)], [⟨5, 9, 0, 31, 0⟩]⟩ 5
    (fun v => if v.exitRoot = 20 then 3 else 7)
    (by decide) (by decide) (by decide) (by decide) (by decide)
    (by decide) (by decide) (by decide) (by decide) (by decide)
  refine ⟨h.1 ⟨2, 1, 11, 0, 0⟩ (by decide), ?_⟩
  have h2 := h.2.2.1 ⟨2, 21, 31⟩ (by decide)
  rw [h2]
  rfl

end Aggkit
